import Mathlib

/-!
Shallow embedding of the photo-morph-detection core of the repository
(`photo_morph_detector.py`, class `PhotoMorphDetector`).

Numbers: Python/NumPy float values are modelled as exact rationals.  NumPy
reductions over an empty array (`np.mean([])`, `np.var([])`) silently produce
NaN (the module suppresses the warnings), so summary statistics are modelled
as `Option ℚ` where `none` is NaN; comparisons with NaN are `false` and
arithmetic propagates NaN, matching Python/NumPy semantics.

External library calls with no bearing on the control flow being verified
(`cv2.dct`, `cv2.GaussianBlur`, `cv2.Canny`, `cv2.Sobel`, colour-space
conversions, `skimage` LBP, `np.sqrt`) are abstracted as fields of an `Ops`
record; theorems assume only the mathematically relevant facts about them
(e.g. `np.sqrt` of a nonnegative number is nonnegative, a blur of a constant
image is that constant) and witnesses instantiate them concretely.

Python exceptions are modelled with `Except`: each `analyze_*` method's
`try` body is a `*_core` function returning `Except String _`, and the
surrounding `except` handler is the wrapper that maps any error to the
method's all-zero fallback dictionary, exactly as in the source.
-/

/-- A single-channel raster plane: pixel value at (row, col). -/
abbrev Grid := ℕ → ℕ → ℚ

/-- A decoded colour image: height, width, and three BGR channel planes
(channel index 0,1,2), as produced by `cv2.imread`. -/
structure Img where
  h : ℕ
  w : ℕ
  chan : ℕ → Grid

/-- A Python/NumPy float that may be NaN (`none`). -/
abbrev PyF := Option ℚ

/-- `a < c` on a possibly-NaN float: NaN comparisons are false. -/
def pyLt (a : PyF) (c : ℚ) : Bool :=
  match a with
  | some x => decide (x < c)
  | none => false

/-- `c < a` on a possibly-NaN float: NaN comparisons are false. -/
def pyGtC (a : PyF) (c : ℚ) : Bool :=
  match a with
  | some x => decide (c < x)
  | none => false

/-- Addition of a constant, propagating NaN. -/
def pyAddC (a : PyF) (c : ℚ) : PyF := a.map (fun x => x + c)

/-- Subtraction of a constant, propagating NaN. -/
def pySubC (a : PyF) (c : ℚ) : PyF := a.map (fun x => x - c)

/-- Multiplication by a constant, propagating NaN. -/
def pyMulC (a : PyF) (c : ℚ) : PyF := a.map (fun x => x * c)

/-- Division by a constant, propagating NaN. -/
def pyDivC (a : PyF) (c : ℚ) : PyF := a.map (fun x => x / c)

/-- Division of two possibly-NaN floats. -/
def pyDiv (a b : PyF) : PyF :=
  match a, b with
  | some x, some y => some (x / y)
  | _, _ => none

/-- Addition of two possibly-NaN floats. -/
def pyAdd (a b : PyF) : PyF :=
  match a, b with
  | some x, some y => some (x + y)
  | _, _ => none

/-- Apply a unary library function (e.g. `np.sqrt`), propagating NaN. -/
def pyMap (f : ℚ → ℚ) (a : PyF) : PyF := a.map f

/-- Python `min(a, c)` for a float `a` and number `c`: returns `c` if
`c < a` else `a`, hence NaN in the first slot is returned unchanged. -/
def pyMinC (a : PyF) (c : ℚ) : PyF :=
  match a with
  | some x => some (min x c)
  | none => none

/-- Python `max(0.0, a)`: returns `a` only when `a > 0.0` is true, so NaN
in the second slot yields `0.0`. -/
def pyMax0 (a : PyF) : ℚ :=
  match a with
  | some x => max 0 x
  | none => 0

/-- `np.sum` over a rational list. -/
def listSumQ (xs : List ℚ) : ℚ := xs.sum

/-- `np.mean` over a nonempty array (total; junk value 0/0 = 0 on `[]`,
never observed because the NaN-aware `nmean` guards the empty case). -/
def meanL (xs : List ℚ) : ℚ := xs.sum / (xs.length : ℚ)

/-- `np.var` (population variance) over a nonempty array. -/
def varL (xs : List ℚ) : ℚ :=
  (xs.map (fun x => (x - meanL xs) ^ 2)).sum / (xs.length : ℚ)

/-- `np.mean`, NaN on the empty array. -/
def nmean (xs : List ℚ) : PyF := if xs = [] then none else some (meanL xs)

/-- `np.var`, NaN on the empty array. -/
def nvar (xs : List ℚ) : PyF := if xs = [] then none else some (varL xs)

/-- `np.std` = square root of `np.var`, NaN on the empty array; the square
root is the abstracted `np.sqrt`. -/
def nstd (sq : ℚ → ℚ) (xs : List ℚ) : PyF :=
  if xs = [] then none else some (sq (varL xs))

/-- Python `range(0, stop, step)` for `step > 0` (empty for `step ≤ 0`;
the zero-step `ValueError` is raised by callers before reaching here). -/
def pyRangeList (stop step : ℤ) : List ℤ :=
  if 0 < step then
    (List.range ((stop + step - 1) / step).toNat).map (fun k => Int.ofNat k * step)
  else []

/-- The shared region-loop index list `range(0, len - rs, stride)` used by
every analyzer in both image dimensions. -/
def loopIdx (len rs stride : ℕ) : List ℤ :=
  pyRangeList ((len : ℤ) - (rs : ℤ)) (stride : ℤ)

/-- Pixel values of the square slice `g[i:i+rs, j:j+rs]`, row major. -/
def regionList (g : Grid) (i j : ℤ) (rs : ℕ) : List ℚ :=
  (List.range rs).flatMap (fun a => (List.range rs).map (fun b => g (i.toNat + a) (j.toNat + b)))

/-- Per-region variances of a plane over the analyzer's region grid. -/
def gridRegionVars (g : Grid) (len1 len2 rs stride : ℕ) : List ℚ :=
  (loopIdx len1 rs stride).flatMap (fun i =>
    (loopIdx len2 rs stride).map (fun j => varL (regionList g i j rs)))

/-- All pixel values of the `h × w` plane, row major (`np.mean(grid)`). -/
def gridList (g : Grid) (h w : ℕ) : List ℚ :=
  (List.range h).flatMap (fun i => (List.range w).map (fun j => g i j))

/-- The external library functions the detector calls, abstracted. -/
structure Ops where
  sqrt : ℚ → ℚ
  dct : Grid → Grid
  gaussianBlur : Grid → Grid
  canny : ℚ → ℚ → Grid → Grid
  sobelX : Grid → Grid
  sobelY : Grid → Grid
  bgr2gray : Img → Grid
  bgr2lab : Img → ℕ → Grid
  bgr2hsv : Img → ℕ → Grid
  lbp : Grid → Grid
  skimageAvailable : Bool

/-- Result dictionary of `analyze_image_compression`. -/
structure CompressionOut where
  compression_inconsistency : PyF
  compression_variance : PyF
  compression_mean : PyF

/-- Result dictionary of `analyze_noise_patterns`. -/
structure NoiseOut where
  noise_inconsistency : PyF
  noise_variance_std : PyF
  noise_variance_mean : PyF

/-- Result dictionary of `analyze_edge_consistency`. -/
structure EdgeOut where
  edge_inconsistency : PyF
  edge_density_std : PyF
  edge_density_mean : PyF

/-- Result dictionary of `analyze_lighting_consistency`. -/
structure LightingOut where
  lighting_inconsistency : PyF
  lighting_variance_std : PyF
  lighting_variance_mean : PyF
  gradient_mean : PyF

/-- Result dictionary of `analyze_color_consistency`. -/
structure ColorOut where
  color_inconsistency : PyF
  hue_variance_std : PyF
  saturation_variance_std : PyF
  value_variance_std : PyF

/-- Result dictionary of `analyze_texture_patterns`. -/
structure TextureOut where
  texture_inconsistency : PyF
  texture_variance_std : PyF
  texture_variance_mean : PyF

/-- Final compression-inconsistency computation from the summary
statistics (source lines 96-104). -/
def compression_score_formula (sq : ℚ → ℚ) (variance mean : PyF) : PyF :=
  if pyLt mean 1 && pyLt variance (1/2) then some 0
  else if pyGtC variance 2 then
    pyMinC (pyMulC (pyMap sq (pyDiv variance (pyAddC mean (1/1000000)))) (3/10)) 1
  else pyMinC (pyDivC variance 5) 1

/-- Per 8×8 block: `np.std(high_freq) / (np.mean(np.abs(high_freq)) + 1e-6)`
where `high_freq = dct_block[4:, 4:]` (source lines 82-89). -/
def dctBlockScore (ops : Ops) (gray : Grid) (i j : ℤ) : ℚ :=
  let block : Grid := fun a b => gray (i.toNat + a) (j.toNat + b)
  let dct_block := ops.dct block
  let hf : List ℚ :=
    (List.range 4).flatMap (fun a => (List.range 4).map (fun b => dct_block (4 + a) (4 + b)))
  ops.sqrt (varL hf) / (meanL (hf.map (fun x => |x|)) + 1/1000000)

/-- `try` body of `analyze_image_compression` (source lines 65-110). -/
def analyze_image_compression_core (ops : Ops) (image : Option Img) :
    Except String CompressionOut :=
  match image with
  | none => .error "Could not load image"
  | some img =>
    let gray := ops.bgr2gray img
    let rows := loopIdx img.h 8 8
    let cols := loopIdx img.w 8 8
    let compression_scores :=
      rows.flatMap (fun i => cols.map (fun j => dctBlockScore ops gray i j))
    let compression_variance := nvar compression_scores
    let compression_mean := nmean compression_scores
    .ok { compression_inconsistency :=
            compression_score_formula ops.sqrt compression_variance compression_mean
          compression_variance := compression_variance
          compression_mean := compression_mean }

/-- `analyze_image_compression` with its `except` fallback (lines 112-114). -/
def analyze_image_compression (ops : Ops) (image : Option Img) : CompressionOut :=
  match analyze_image_compression_core ops image with
  | .ok r => r
  | .error _ => ⟨some 0, some 0, some 0⟩

/-- Final noise-inconsistency computation from the summary statistics
(source lines 140-147). -/
def noise_score_formula (sq : ℚ → ℚ) (std mean : PyF) : PyF :=
  if pyLt mean 20 then some 0
  else if pyGtC std 100 then
    pyMinC (pyMulC (pyMap sq (pyDiv std (pyAddC mean (1/1000000)))) (1/5)) 1
  else pyMinC (pyDivC std 200) 1

/-- `region_size = min(h, w) // 4` of the noise analyzer (line 128). -/
def noise_region_size (h w : ℕ) : ℕ := min h w / 4

/-- Loop step `region_size // 2` of the noise analyzer (lines 131-132). -/
def noise_stride (h w : ℕ) : ℕ := noise_region_size h w / 2

/-- `try` body of `analyze_noise_patterns` (source lines 118-153); a zero
loop step reproduces Python's `range` `ValueError`. -/
def analyze_noise_patterns_core (ops : Ops) (image : Option Img) :
    Except String NoiseOut :=
  match image with
  | none => .error "cvtColor: bad argument"
  | some img =>
    let gray := ops.bgr2gray img
    let gaussian_filtered := ops.gaussianBlur gray
    let noiseG : Grid := fun i j => gray i j - gaussian_filtered i j
    if noise_stride img.h img.w = 0 then .error "range arg 3 must not be zero"
    else
      let rs := noise_region_size img.h img.w
      let noise_variances :=
        gridRegionVars noiseG img.h img.w rs (noise_stride img.h img.w)
      let noise_variance_std := nstd ops.sqrt noise_variances
      let noise_variance_mean := nmean noise_variances
      .ok { noise_inconsistency :=
              noise_score_formula ops.sqrt noise_variance_std noise_variance_mean
            noise_variance_std := noise_variance_std
            noise_variance_mean := noise_variance_mean }

/-- `analyze_noise_patterns` with its `except` fallback (lines 155-157). -/
def analyze_noise_patterns (ops : Ops) (image : Option Img) : NoiseOut :=
  match analyze_noise_patterns_core ops image with
  | .ok r => r
  | .error _ => ⟨some 0, some 0, some 0⟩

/-- Final edge-inconsistency computation from the summary statistics
(source lines 184-191). -/
def edge_score_formula (sq : ℚ → ℚ) (std mean : PyF) : PyF :=
  if pyLt mean (1/50) || pyLt std (1/100) then some 0
  else if pyGtC std (1/20) then
    pyMinC (pyMulC (pyMap sq (pyDiv std (pyAddC mean (1/1000000)))) (1/4)) 1
  else pyMinC (pyDivC std (1/10)) 1

/-- `region_size = min(h, w) // 6` of the edge analyzer (line 171). -/
def edge_region_size (h w : ℕ) : ℕ := min h w / 6

/-- Per-region edge densities `np.sum(region > 0) / (rs * rs)` over the
edge analyzer's grid (lines 174-178). -/
def gridRegionEdgeDensity (g : Grid) (len1 len2 rs stride : ℕ) : List ℚ :=
  (loopIdx len1 rs stride).flatMap (fun i =>
    (loopIdx len2 rs stride).map (fun j =>
      (((regionList g i j rs).countP (fun x => decide (0 < x)) : ℕ) : ℚ) / ((rs : ℚ) * (rs : ℚ))))

/-- `try` body of `analyze_edge_consistency` (source lines 161-197). -/
def analyze_edge_consistency_core (ops : Ops) (image : Option Img) :
    Except String EdgeOut :=
  match image with
  | none => .error "cvtColor: bad argument"
  | some img =>
    let gray := ops.bgr2gray img
    let edges1 := ops.canny 50 150 gray
    let edges2 := ops.canny 100 200 gray
    let _unused := edges2
    if edge_region_size img.h img.w = 0 then .error "range arg 3 must not be zero"
    else
      let rs := edge_region_size img.h img.w
      let edge_densities := gridRegionEdgeDensity edges1 img.h img.w rs rs
      let edge_density_std := nstd ops.sqrt edge_densities
      let edge_density_mean := nmean edge_densities
      .ok { edge_inconsistency :=
              edge_score_formula ops.sqrt edge_density_std edge_density_mean
            edge_density_std := edge_density_std
            edge_density_mean := edge_density_mean }

/-- `analyze_edge_consistency` with its `except` fallback (lines 199-201). -/
def analyze_edge_consistency (ops : Ops) (image : Option Img) : EdgeOut :=
  match analyze_edge_consistency_core ops image with
  | .ok r => r
  | .error _ => ⟨some 0, some 0, some 0⟩

/-- Final lighting-inconsistency computation (source line 228): plain
`min(std / (mean + 1e-6), 1.0)`, with no low-activity branch. -/
def lighting_score_formula (std mean : PyF) : PyF :=
  pyMinC (pyDiv std (pyAddC mean (1/1000000))) 1

/-- `region_size = min(h, w) // 5` of the lighting analyzer (line 217). -/
def lighting_region_size (h w : ℕ) : ℕ := min h w / 5

/-- `try` body of `analyze_lighting_consistency` (source lines 205-235). -/
def analyze_lighting_consistency_core (ops : Ops) (image : Option Img) :
    Except String LightingOut :=
  match image with
  | none => .error "cvtColor: bad argument"
  | some img =>
    let l_channel := ops.bgr2lab img 0
    let grad_x := ops.sobelX l_channel
    let grad_y := ops.sobelY l_channel
    let gradient_magnitude : Grid :=
      fun i j => ops.sqrt (grad_x i j ^ 2 + grad_y i j ^ 2)
    if lighting_region_size img.h img.w = 0 then .error "range arg 3 must not be zero"
    else
      let rs := lighting_region_size img.h img.w
      let lighting_variances := gridRegionVars l_channel img.h img.w rs rs
      let lighting_variance_std := nstd ops.sqrt lighting_variances
      let lighting_variance_mean := nmean lighting_variances
      .ok { lighting_inconsistency :=
              lighting_score_formula lighting_variance_std lighting_variance_mean
            lighting_variance_std := lighting_variance_std
            lighting_variance_mean := lighting_variance_mean
            gradient_mean := nmean (gridList gradient_magnitude img.h img.w) }

/-- `analyze_lighting_consistency` with its `except` fallback (238-240). -/
def analyze_lighting_consistency (ops : Ops) (image : Option Img) : LightingOut :=
  match analyze_lighting_consistency_core ops image with
  | .ok r => r
  | .error _ => ⟨some 0, some 0, some 0, some 0⟩

/-- Final colour-inconsistency computation (source lines 266-271):
`min(np.mean(std / (mean + 1e-6)), 1.0)` over the three HSV channels. -/
def color_score_formula (sh mh ss ms sv mv : PyF) : PyF :=
  pyMinC (pyDivC (pyAdd (pyAdd (pyDiv sh (pyAddC mh (1/1000000)))
                               (pyDiv ss (pyAddC ms (1/1000000))))
                        (pyDiv sv (pyAddC mv (1/1000000)))) 3) 1

/-- `region_size = min(h, w) // 4` of the colour analyzer (line 250). -/
def color_region_size (h w : ℕ) : ℕ := min h w / 4

/-- `try` body of `analyze_color_consistency` (source lines 244-278). -/
def analyze_color_consistency_core (ops : Ops) (image : Option Img) :
    Except String ColorOut :=
  match image with
  | none => .error "cvtColor: bad argument"
  | some img =>
    let hsv := ops.bgr2hsv img
    if color_region_size img.h img.w = 0 then .error "range arg 3 must not be zero"
    else
      let rs := color_region_size img.h img.w
      let h_vars := gridRegionVars (hsv 0) img.h img.w rs rs
      let s_vars := gridRegionVars (hsv 1) img.h img.w rs rs
      let v_vars := gridRegionVars (hsv 2) img.h img.w rs rs
      .ok { color_inconsistency :=
              color_score_formula (nstd ops.sqrt h_vars) (nmean h_vars)
                (nstd ops.sqrt s_vars) (nmean s_vars)
                (nstd ops.sqrt v_vars) (nmean v_vars)
            hue_variance_std := nstd ops.sqrt h_vars
            saturation_variance_std := nstd ops.sqrt s_vars
            value_variance_std := nstd ops.sqrt v_vars }

/-- `analyze_color_consistency` with its `except` fallback (280-283). -/
def analyze_color_consistency (ops : Ops) (image : Option Img) : ColorOut :=
  match analyze_color_consistency_core ops image with
  | .ok r => r
  | .error _ => ⟨some 0, some 0, some 0, some 0⟩

/-- Final texture-inconsistency computation (source line 316): plain
`min(std / (mean + 1e-6), 1.0)`, with no low-activity branch. -/
def texture_score_formula (std mean : PyF) : PyF :=
  pyMinC (pyDiv std (pyAddC mean (1/1000000))) 1

/-- `region_size = min(h, w) // 6` of the texture analyzer (line 305). -/
def texture_region_size (h w : ℕ) : ℕ := min h w / 6

/-- `try` body of `analyze_texture_patterns` (source lines 287-322). -/
def analyze_texture_patterns_core (ops : Ops) (image : Option Img) :
    Except String TextureOut :=
  match image with
  | none => .error "cvtColor: bad argument"
  | some img =>
    let gray := ops.bgr2gray img
    let lbpG : Grid :=
      if ops.skimageAvailable then ops.lbp gray
      else fun i j => ops.sqrt (ops.sobelX gray i j ^ 2 + ops.sobelY gray i j ^ 2)
    if texture_region_size img.h img.w = 0 then .error "range arg 3 must not be zero"
    else
      let rs := texture_region_size img.h img.w
      let texture_variances := gridRegionVars lbpG img.h img.w rs rs
      let texture_variance_std := nstd ops.sqrt texture_variances
      let texture_variance_mean := nmean texture_variances
      .ok { texture_inconsistency :=
              texture_score_formula texture_variance_std texture_variance_mean
            texture_variance_std := texture_variance_std
            texture_variance_mean := texture_variance_mean }

/-- `analyze_texture_patterns` with its `except` fallback (324-326). -/
def analyze_texture_patterns (ops : Ops) (image : Option Img) : TextureOut :=
  match analyze_texture_patterns_core ops image with
  | .ok r => r
  | .error _ => ⟨some 0, some 0, some 0⟩

/-- The `analyses` dictionary assembled by `detect_morph` (lines 405-412). -/
structure Analyses where
  compression : CompressionOut
  noise : NoiseOut
  edge : EdgeOut
  lighting : LightingOut
  color : ColorOut
  texture : TextureOut

/-- The `component_scores` dictionary (source lines 371-378). -/
structure ComponentScores where
  compression_artifacts : PyF
  noise_inconsistency : PyF
  edge_irregularities : PyF
  lighting_inconsistency : PyF
  color_inconsistency : PyF
  texture_irregularities : PyF

/-- `calculate_morph_score` (source lines 328-380): clamp each score to at
most 1, weighted sum, subtract 0.1 (floored at 0 by Python `max`, which
also maps a NaN sum to 0.0), scale by 0.7, classify, and emit the ×100
component scores.  Its `except` fallback (lines 382-391) is unreachable in
the model: the body is pure total arithmetic. -/
def calculate_morph_score (analyses : Analyses) : ℚ × String × ComponentScores :=
  let compression_score := pyMinC analyses.compression.compression_inconsistency 1
  let noise_score := pyMinC analyses.noise.noise_inconsistency 1
  let edge_score := pyMinC analyses.edge.edge_inconsistency 1
  let lighting_score := pyMinC analyses.lighting.lighting_inconsistency 1
  let color_score := pyMinC analyses.color.color_inconsistency 1
  let texture_score := pyMinC analyses.texture.texture_inconsistency 1
  let weighted :=
    pyAdd (pyAdd (pyAdd (pyAdd (pyAdd
      (pyMulC compression_score (3/20))
      (pyMulC noise_score (3/20)))
      (pyMulC edge_score (1/5)))
      (pyMulC lighting_score (1/5)))
      (pyMulC color_score (3/20)))
      (pyMulC texture_score (3/20))
  let morph_probability := pyMax0 (pyMinC (pySubC weighted (1/10)) 1) * (7/10)
  let classification :=
    if morph_probability < 3/10 then "Real Photo"
    else if morph_probability < 7/10 then "Possibly Morphed"
    else "Likely Morphed"
  let component_scores : ComponentScores :=
    { compression_artifacts := pyMulC compression_score 100
      noise_inconsistency := pyMulC noise_score 100
      edge_irregularities := pyMulC edge_score 100
      lighting_inconsistency := pyMulC lighting_score 100
      color_inconsistency := pyMulC color_score 100
      texture_irregularities := pyMulC texture_score 100 }
  (morph_probability, classification, component_scores)

/-- Python `round(x, 3)` (ties cannot arise at the values exercised, so
half-up rounding is used for the model). -/
def round3 (x : ℚ) : ℚ := ((round (x * 1000) : ℤ) : ℚ) / 1000

/-- Python `round(x, 1)`. -/
def round1 (x : ℚ) : ℚ := ((round (x * 10) : ℤ) : ℚ) / 10

/-- Certainty band from the calibrated probability (lines 422-427). -/
def certaintyOf (p : ℚ) : String :=
  if 3/10 < |p - 1/2| then "High"
  else if 3/20 < |p - 1/2| then "Medium"
  else "Low"

/-- Mutable attributes of the `PhotoMorphDetector` instance that
`detect_morph` reads (`self.name`, `self.device`); set in `__init__` and
never written afterwards. -/
structure DetectorState where
  name : String := "Photo Morph Detector"
  device : String := "cpu"
  model_loaded : Bool := false

/-- The result dictionary of `detect_morph` (keys absent in the failure
dictionary are `none`). -/
structure MorphResult where
  success : Bool
  error : Option String := none
  prediction : Option String := none
  morph_probability : PyF := none
  morph_percentage : PyF := none
  real_percentage : PyF := none
  certainty : Option String := none
  component_scores : Option ComponentScores := none
  detailed_analysis : Option Analyses := none
  model_used : Option String := none
  device : Option String := none
  method : Option String := none

/-- The six analyzer invocations of `detect_morph` (lines 405-412). -/
def analysesOf (ops : Ops) (image : Option Img) : Analyses :=
  { compression := analyze_image_compression ops image
    noise := analyze_noise_patterns ops image
    edge := analyze_edge_consistency ops image
    lighting := analyze_lighting_consistency ops image
    color := analyze_color_consistency ops image
    texture := analyze_texture_patterns ops image }

/-- `detect_morph` (source lines 393-451).  `pathExists` models
`Path(image_path).exists()`; `decoded` models what `cv2.imread` returns for
that path inside each analyzer (`none` = undecodable).  Note the code never
checks decodability before analysis: a `none` decode is only ever seen by
the analyzers, each of which catches it. -/
def detect_morph (st : DetectorState) (ops : Ops) (pathExists : Bool)
    (decoded : Option Img) : MorphResult :=
  if pathExists = false then
    { success := false, error := some "Image not found" }
  else
    let analyses := analysesOf ops decoded
    let r := calculate_morph_score analyses
    let p := r.1
    { success := true
      prediction := some r.2.1
      morph_probability := some (round3 p)
      morph_percentage := some (round1 (p * 100))
      real_percentage := some (round1 ((1 - p) * 100))
      certainty := some (certaintyOf p)
      component_scores := some r.2.2
      detailed_analysis := some analyses
      model_used := some st.name
      device := some st.device
      method := some "multi-analysis" }

/-- State-passing form of `detect_morph`: the method writes no instance
attribute, so the state is returned unchanged. -/
def detect_morphS (st : DetectorState) (ops : Ops) (pathExists : Bool)
    (decoded : Option Img) : MorphResult × DetectorState :=
  (detect_morph st ops pathExists decoded, st)

/-! ### Helper lemmas: list statistics -/

lemma listSum_all_eq {c : ℚ} : ∀ {xs : List ℚ}, (∀ x ∈ xs, x = c) → xs.sum = (xs.length : ℚ) * c := by
  intro xs
  induction xs with
  | nil => intro _; simp
  | cons a t ih =>
    intro h
    have ha : a = c := h a (List.mem_cons_self a t)
    have ht := ih (fun x hx => h x (List.mem_cons_of_mem a hx))
    simp only [List.sum_cons, ht, ha, List.length_cons]
    push_cast
    ring

lemma meanL_all_eq {c : ℚ} {xs : List ℚ} (hne : xs ≠ []) (h : ∀ x ∈ xs, x = c) :
    meanL xs = c := by
  have hlen : (xs.length : ℚ) ≠ 0 := by
    simpa using List.length_pos.mpr hne |>.ne'
  rw [meanL, listSum_all_eq h, mul_comm, mul_div_assoc, div_self hlen, mul_one]

lemma meanL_nonneg {xs : List ℚ} (h : ∀ x ∈ xs, 0 ≤ x) : 0 ≤ meanL xs :=
  div_nonneg (List.sum_nonneg h) (by positivity)

lemma varL_nonneg (xs : List ℚ) : 0 ≤ varL xs := by
  refine div_nonneg (List.sum_nonneg ?_) (by positivity)
  intro x hx
  obtain ⟨y, _, rfl⟩ := List.mem_map.mp hx
  positivity

lemma varL_all_eq {c : ℚ} {xs : List ℚ} (h : ∀ x ∈ xs, x = c) : varL xs = 0 := by
  rcases eq_or_ne xs [] with rfl | hne
  · simp [varL]
  · have : ∀ y ∈ xs.map (fun x => (x - meanL xs) ^ 2), y = 0 := by
      intro y hy
      obtain ⟨x, hx, rfl⟩ := List.mem_map.mp hy
      rw [h x hx, meanL_all_eq hne h, sub_self]
      ring
    rw [varL, listSum_all_eq this, mul_zero, zero_div]

lemma nmean_all_eq {c : ℚ} {xs : List ℚ} (hne : xs ≠ []) (h : ∀ x ∈ xs, x = c) :
    nmean xs = some c := by
  rw [nmean, if_neg hne, meanL_all_eq hne h]

lemma nstd_all_eq (sq : ℚ → ℚ) {c : ℚ} {xs : List ℚ} (hne : xs ≠ []) (h : ∀ x ∈ xs, x = c) :
    nstd sq xs = some (sq 0) := by
  rw [nstd, if_neg hne, varL_all_eq h]

lemma nmean_of_ne_nil {xs : List ℚ} (hne : xs ≠ []) : nmean xs = some (meanL xs) :=
  if_neg hne

lemma nvar_of_ne_nil {xs : List ℚ} (hne : xs ≠ []) : nvar xs = some (varL xs) :=
  if_neg hne

lemma nstd_of_ne_nil (sq : ℚ → ℚ) {xs : List ℚ} (hne : xs ≠ []) :
    nstd sq xs = some (sq (varL xs)) :=
  if_neg hne

/-! ### Helper lemmas: the region loop -/

lemma pyRangeList_length {stop step : ℤ} (h : 0 < step) :
    (pyRangeList stop step).length = ((stop + step - 1) / step).toNat := by
  rw [pyRangeList, if_pos h, List.length_map, List.length_range]

lemma mem_pyRangeList {stop step : ℤ} (hstep : 0 < step) {i : ℤ} :
    i ∈ pyRangeList stop step ↔
      ∃ k : ℕ, k < ((stop + step - 1) / step).toNat ∧ i = (k : ℤ) * step := by
  rw [pyRangeList, if_pos hstep]
  simp only [List.mem_map, List.mem_range]
  constructor
  · rintro ⟨k, hk, hke⟩
    exact ⟨k, hk, hke.symm⟩
  · rintro ⟨k, hk, rfl⟩
    exact ⟨k, hk, rfl⟩

lemma mem_pyRangeList_bounds {stop step i : ℤ} (hstep : 0 < step)
    (hi : i ∈ pyRangeList stop step) : 0 ≤ i ∧ i < stop := by
  obtain ⟨k, hk, rfl⟩ := (mem_pyRangeList hstep).mp hi
  have hk' : (k : ℤ) < (stop + step - 1) / step := by omega
  constructor
  · positivity
  · have h1 : (k : ℤ) ≤ (stop + step - 1) / step - 1 := by omega
    have h2 : (k : ℤ) * step ≤ ((stop + step - 1) / step - 1) * step :=
      mul_le_mul_of_nonneg_right h1 (le_of_lt hstep)
    have h3 : (stop + step - 1) / step * step ≤ stop + step - 1 :=
      Int.ediv_mul_le _ (by omega)
    have h4 : ((stop + step - 1) / step - 1) * step
        = (stop + step - 1) / step * step - step := by ring
    omega

lemma pyRangeList_ne_nil {stop step : ℤ} (hstep : 0 < step) (hstop : 0 < stop) :
    pyRangeList stop step ≠ [] := by
  have h1 : 1 ≤ (stop + step - 1) / step := by
    rw [Int.le_ediv_iff_mul_le hstep]; omega
  have h2 : 0 < (pyRangeList stop step).length := by
    rw [pyRangeList_length hstep]; omega
  exact List.length_pos.mp h2

lemma loopIdx_ne_nil {len rs stride : ℕ} (hstride : 0 < stride) (hlt : rs < len) :
    loopIdx len rs stride ≠ [] := by
  apply pyRangeList_ne_nil (by exact_mod_cast hstride)
  omega

lemma mem_loopIdx_bounds {len rs stride : ℕ} (hstride : 0 < stride) {i : ℤ}
    (hi : i ∈ loopIdx len rs stride) : 0 ≤ i ∧ i + rs ≤ (len : ℤ) := by
  have := @mem_pyRangeList_bounds ((len : ℤ) - (rs : ℤ)) (stride : ℤ) i (by exact_mod_cast hstride) hi
  omega

/-! ### Helper lemmas: flatMap grids -/

lemma flatMap_map_ne_nil {α β γ : Type} {l1 : List α} {l2 : List β}
    (h1 : l1 ≠ []) (h2 : l2 ≠ []) (f : α → β → γ) :
    l1.flatMap (fun i => l2.map (f i)) ≠ [] := by
  cases l1 with
  | nil => exact absurd rfl h1
  | cons a t =>
    simp only [List.flatMap_cons]
    intro hcontra
    rcases List.append_eq_nil.mp hcontra with ⟨hmap, _⟩
    exact h2 (List.map_eq_nil_iff.mp hmap)

lemma mem_flatMap_map {α β γ : Type} {l1 : List α} {l2 : List β} {f : α → β → γ} {x : γ} :
    x ∈ l1.flatMap (fun i => l2.map (f i)) ↔ ∃ i ∈ l1, ∃ j ∈ l2, x = f i j := by
  simp only [List.mem_flatMap, List.mem_map]
  constructor
  · rintro ⟨i, hi, j, hj, rfl⟩
    exact ⟨i, hi, j, hj, rfl⟩
  · rintro ⟨i, hi, j, hj, rfl⟩
    exact ⟨i, hi, j, hj, rfl⟩

lemma mem_regionList {g : Grid} {i j : ℤ} {rs : ℕ} {x : ℚ} (hx : x ∈ regionList g i j rs) :
    ∃ a b : ℕ, x = g (i.toNat + a) (j.toNat + b) := by
  obtain ⟨a, _, b, _, rfl⟩ := mem_flatMap_map.mp hx
  exact ⟨a, b, rfl⟩

lemma gridRegionVars_nonneg {g : Grid} {len1 len2 rs stride : ℕ} :
    ∀ x ∈ gridRegionVars g len1 len2 rs stride, 0 ≤ x := by
  intro x hx
  obtain ⟨i, _, j, _, rfl⟩ := mem_flatMap_map.mp hx
  exact varL_nonneg _

lemma gridRegionVars_all_zero {g : Grid} {c : ℚ} (hg : ∀ i j, g i j = c)
    {len1 len2 rs stride : ℕ} :
    ∀ x ∈ gridRegionVars g len1 len2 rs stride, x = 0 := by
  intro x hx
  obtain ⟨i, _, j, _, rfl⟩ := mem_flatMap_map.mp hx
  apply varL_all_eq
  intro y hy
  obtain ⟨a, b, rfl⟩ := mem_regionList hy
  exact hg _ _

lemma gridRegionVars_ne_nil {g : Grid} {len1 len2 rs stride : ℕ}
    (hstride : 0 < stride) (h1 : rs < len1) (h2 : rs < len2) :
    gridRegionVars g len1 len2 rs stride ≠ [] :=
  flatMap_map_ne_nil (loopIdx_ne_nil hstride h1) (loopIdx_ne_nil hstride h2) _

/-! ### Helper lemmas: score-formula range -/

/-- The value is a genuine (non-NaN) number lying in [0, 1]. -/
def inUnitPF (a : PyF) : Prop := ∃ q : ℚ, a = some q ∧ 0 ≤ q ∧ q ≤ 1

/-- The value is a genuine (non-NaN) number lying in [0, 100]. -/
def inPctPF (a : PyF) : Prop := ∃ q : ℚ, a = some q ∧ 0 ≤ q ∧ q ≤ 100

lemma pyMinC_one_inUnit {x : ℚ} (hx : 0 ≤ x) : inUnitPF (pyMinC (some x) 1) :=
  ⟨min x 1, rfl, le_min hx zero_le_one, min_le_right x 1⟩

lemma inUnitPF_zero : inUnitPF (some 0) := ⟨0, rfl, le_refl 0, zero_le_one⟩

lemma compression_formula_inUnit (sq : ℚ → ℚ) (hsq : ∀ x, 0 ≤ x → 0 ≤ sq x)
    {v m : ℚ} (hv : 0 ≤ v) (hm : 0 ≤ m) :
    inUnitPF (compression_score_formula sq (some v) (some m)) := by
  unfold compression_score_formula
  split
  · exact inUnitPF_zero
  · split
    · simp only [pyDiv, pyAddC, pyMap, pyMulC, Option.map_some']
      exact pyMinC_one_inUnit
        (mul_nonneg (hsq _ (div_nonneg hv (by positivity))) (by norm_num))
    · simp only [pyDivC, Option.map_some']
      exact pyMinC_one_inUnit (div_nonneg hv (by norm_num))

lemma noise_formula_inUnit (sq : ℚ → ℚ) (hsq : ∀ x, 0 ≤ x → 0 ≤ sq x)
    {s m : ℚ} (hs : 0 ≤ s) (hm : 0 ≤ m) :
    inUnitPF (noise_score_formula sq (some s) (some m)) := by
  unfold noise_score_formula
  split
  · exact inUnitPF_zero
  · split
    · simp only [pyDiv, pyAddC, pyMap, pyMulC, Option.map_some']
      exact pyMinC_one_inUnit
        (mul_nonneg (hsq _ (div_nonneg hs (by positivity))) (by norm_num))
    · simp only [pyDivC, Option.map_some']
      exact pyMinC_one_inUnit (div_nonneg hs (by norm_num))

lemma edge_formula_inUnit (sq : ℚ → ℚ) (hsq : ∀ x, 0 ≤ x → 0 ≤ sq x)
    {s m : ℚ} (hs : 0 ≤ s) (hm : 0 ≤ m) :
    inUnitPF (edge_score_formula sq (some s) (some m)) := by
  unfold edge_score_formula
  split
  · exact inUnitPF_zero
  · split
    · simp only [pyDiv, pyAddC, pyMap, pyMulC, Option.map_some']
      exact pyMinC_one_inUnit
        (mul_nonneg (hsq _ (div_nonneg hs (by positivity))) (by norm_num))
    · simp only [pyDivC, Option.map_some']
      exact pyMinC_one_inUnit (div_nonneg hs (by norm_num))

lemma lighting_formula_inUnit {s m : ℚ} (hs : 0 ≤ s) (hm : 0 ≤ m) :
    inUnitPF (lighting_score_formula (some s) (some m)) := by
  unfold lighting_score_formula
  simp only [pyDiv, pyAddC, Option.map_some']
  exact pyMinC_one_inUnit (div_nonneg hs (by positivity))

lemma texture_formula_inUnit {s m : ℚ} (hs : 0 ≤ s) (hm : 0 ≤ m) :
    inUnitPF (texture_score_formula (some s) (some m)) := by
  unfold texture_score_formula
  simp only [pyDiv, pyAddC, Option.map_some']
  exact pyMinC_one_inUnit (div_nonneg hs (by positivity))

lemma color_formula_inUnit {sh mh ss ms sv mv : ℚ}
    (h1 : 0 ≤ sh) (h2 : 0 ≤ mh) (h3 : 0 ≤ ss) (h4 : 0 ≤ ms) (h5 : 0 ≤ sv) (h6 : 0 ≤ mv) :
    inUnitPF (color_score_formula (some sh) (some mh) (some ss) (some ms) (some sv) (some mv)) := by
  unfold color_score_formula
  simp only [pyDiv, pyAddC, pyAdd, pyDivC, Option.map_some']
  refine pyMinC_one_inUnit (div_nonneg ?_ (by norm_num))
  have r1 : 0 ≤ sh / (mh + 1/1000000) := div_nonneg h1 (by positivity)
  have r2 : 0 ≤ ss / (ms + 1/1000000) := div_nonneg h3 (by positivity)
  have r3 : 0 ≤ sv / (mv + 1/1000000) := div_nonneg h5 (by positivity)
  linarith

/-! ### Helper lemmas: per-analyzer score range -/

lemma noise_stride_facts {h w : ℕ} (hs : noise_stride h w ≠ 0) :
    0 < noise_stride h w ∧ noise_region_size h w < h ∧ noise_region_size h w < w := by
  unfold noise_stride noise_region_size at *
  omega

lemma edge_size_facts {h w : ℕ} (hs : edge_region_size h w ≠ 0) :
    0 < edge_region_size h w ∧ edge_region_size h w < h ∧ edge_region_size h w < w := by
  unfold edge_region_size at *
  omega

lemma lighting_size_facts {h w : ℕ} (hs : lighting_region_size h w ≠ 0) :
    0 < lighting_region_size h w ∧ lighting_region_size h w < h ∧ lighting_region_size h w < w := by
  unfold lighting_region_size at *
  omega

lemma color_size_facts {h w : ℕ} (hs : color_region_size h w ≠ 0) :
    0 < color_region_size h w ∧ color_region_size h w < h ∧ color_region_size h w < w := by
  unfold color_region_size at *
  omega

lemma texture_size_facts {h w : ℕ} (hs : texture_region_size h w ≠ 0) :
    0 < texture_region_size h w ∧ texture_region_size h w < h ∧ texture_region_size h w < w := by
  unfold texture_region_size at *
  omega

lemma dctBlockScore_nonneg (ops : Ops) (hsq : ∀ x, 0 ≤ x → 0 ≤ ops.sqrt x)
    (gray : Grid) (i j : ℤ) : 0 ≤ dctBlockScore ops gray i j := by
  unfold dctBlockScore
  refine div_nonneg (hsq _ (varL_nonneg _)) ?_
  have hmean : 0 ≤ meanL (List.map (fun x => |x|)
      ((List.range 4).flatMap (fun a => (List.range 4).map (fun b =>
        ops.dct (fun a b => gray (i.toNat + a) (j.toNat + b)) (4 + a) (4 + b))))) := by
    apply meanL_nonneg
    intro x hx
    obtain ⟨y, _, rfl⟩ := List.mem_map.mp hx
    positivity
  linarith

lemma analyze_compression_inUnit (ops : Ops) (hsq : ∀ x, 0 ≤ x → 0 ≤ ops.sqrt x)
    (img : Img) (h9 : 9 ≤ min img.h img.w) :
    inUnitPF (analyze_image_compression ops (some img)).compression_inconsistency := by
  have hr : loopIdx img.h 8 8 ≠ [] := loopIdx_ne_nil (by norm_num) (by omega)
  have hc : loopIdx img.w 8 8 ≠ [] := loopIdx_ne_nil (by norm_num) (by omega)
  have hne : (loopIdx img.h 8 8).flatMap (fun i => (loopIdx img.w 8 8).map (fun j =>
      dctBlockScore ops (ops.bgr2gray img) i j)) ≠ [] :=
    flatMap_map_ne_nil hr hc _
  simp only [analyze_image_compression, analyze_image_compression_core]
  rw [nvar_of_ne_nil hne, nmean_of_ne_nil hne]
  refine compression_formula_inUnit ops.sqrt hsq (varL_nonneg _) (meanL_nonneg ?_)
  intro x hx
  obtain ⟨i, _, j, _, rfl⟩ := mem_flatMap_map.mp hx
  exact dctBlockScore_nonneg ops hsq _ i j

lemma analyze_noise_inUnit (ops : Ops) (hsq : ∀ x, 0 ≤ x → 0 ≤ ops.sqrt x)
    (image : Option Img) :
    inUnitPF (analyze_noise_patterns ops image).noise_inconsistency := by
  cases image with
  | none => exact inUnitPF_zero
  | some img =>
    by_cases hs : noise_stride img.h img.w = 0
    · simp only [analyze_noise_patterns, analyze_noise_patterns_core, hs, if_pos]
      exact inUnitPF_zero
    · obtain ⟨hpos, h1, h2⟩ := noise_stride_facts hs
      have hne : gridRegionVars
          (fun i j => ops.bgr2gray img i j - ops.gaussianBlur (ops.bgr2gray img) i j)
          img.h img.w (noise_region_size img.h img.w) (noise_stride img.h img.w) ≠ [] :=
        gridRegionVars_ne_nil hpos h1 h2
      simp only [analyze_noise_patterns, analyze_noise_patterns_core, if_neg hs]
      rw [nstd_of_ne_nil _ hne, nmean_of_ne_nil hne]
      exact noise_formula_inUnit ops.sqrt hsq (hsq _ (varL_nonneg _))
        (meanL_nonneg gridRegionVars_nonneg)

lemma gridRegionEdgeDensity_nonneg {g : Grid} {len1 len2 rs stride : ℕ} :
    ∀ x ∈ gridRegionEdgeDensity g len1 len2 rs stride, 0 ≤ x := by
  intro x hx
  obtain ⟨i, _, j, _, rfl⟩ := mem_flatMap_map.mp hx
  positivity

lemma gridRegionEdgeDensity_ne_nil {g : Grid} {len1 len2 rs stride : ℕ}
    (hstride : 0 < stride) (h1 : rs < len1) (h2 : rs < len2) :
    gridRegionEdgeDensity g len1 len2 rs stride ≠ [] :=
  flatMap_map_ne_nil (loopIdx_ne_nil hstride h1) (loopIdx_ne_nil hstride h2) _

lemma analyze_edge_inUnit (ops : Ops) (hsq : ∀ x, 0 ≤ x → 0 ≤ ops.sqrt x)
    (image : Option Img) :
    inUnitPF (analyze_edge_consistency ops image).edge_inconsistency := by
  cases image with
  | none => exact inUnitPF_zero
  | some img =>
    by_cases hs : edge_region_size img.h img.w = 0
    · simp only [analyze_edge_consistency, analyze_edge_consistency_core, hs, if_pos]
      exact inUnitPF_zero
    · obtain ⟨hpos, h1, h2⟩ := edge_size_facts hs
      have hne : gridRegionEdgeDensity (ops.canny 50 150 (ops.bgr2gray img))
          img.h img.w (edge_region_size img.h img.w) (edge_region_size img.h img.w) ≠ [] :=
        gridRegionEdgeDensity_ne_nil hpos h1 h2
      simp only [analyze_edge_consistency, analyze_edge_consistency_core, if_neg hs]
      rw [nstd_of_ne_nil _ hne, nmean_of_ne_nil hne]
      exact edge_formula_inUnit ops.sqrt hsq (hsq _ (varL_nonneg _))
        (meanL_nonneg gridRegionEdgeDensity_nonneg)

lemma analyze_lighting_inUnit (ops : Ops) (hsq : ∀ x, 0 ≤ x → 0 ≤ ops.sqrt x)
    (image : Option Img) :
    inUnitPF (analyze_lighting_consistency ops image).lighting_inconsistency := by
  cases image with
  | none => exact inUnitPF_zero
  | some img =>
    by_cases hs : lighting_region_size img.h img.w = 0
    · simp only [analyze_lighting_consistency, analyze_lighting_consistency_core, hs, if_pos]
      exact inUnitPF_zero
    · obtain ⟨hpos, h1, h2⟩ := lighting_size_facts hs
      have hne : gridRegionVars (ops.bgr2lab img 0) img.h img.w
          (lighting_region_size img.h img.w) (lighting_region_size img.h img.w) ≠ [] :=
        gridRegionVars_ne_nil hpos h1 h2
      simp only [analyze_lighting_consistency, analyze_lighting_consistency_core, if_neg hs]
      rw [nstd_of_ne_nil _ hne, nmean_of_ne_nil hne]
      exact lighting_formula_inUnit (hsq _ (varL_nonneg _))
        (meanL_nonneg gridRegionVars_nonneg)

lemma analyze_color_inUnit (ops : Ops) (hsq : ∀ x, 0 ≤ x → 0 ≤ ops.sqrt x)
    (image : Option Img) :
    inUnitPF (analyze_color_consistency ops image).color_inconsistency := by
  cases image with
  | none => exact inUnitPF_zero
  | some img =>
    by_cases hs : color_region_size img.h img.w = 0
    · simp only [analyze_color_consistency, analyze_color_consistency_core, hs, if_pos]
      exact inUnitPF_zero
    · obtain ⟨hpos, h1, h2⟩ := color_size_facts hs
      have hne0 : gridRegionVars (ops.bgr2hsv img 0) img.h img.w
          (color_region_size img.h img.w) (color_region_size img.h img.w) ≠ [] :=
        gridRegionVars_ne_nil hpos h1 h2
      have hne1 : gridRegionVars (ops.bgr2hsv img 1) img.h img.w
          (color_region_size img.h img.w) (color_region_size img.h img.w) ≠ [] :=
        gridRegionVars_ne_nil hpos h1 h2
      have hne2 : gridRegionVars (ops.bgr2hsv img 2) img.h img.w
          (color_region_size img.h img.w) (color_region_size img.h img.w) ≠ [] :=
        gridRegionVars_ne_nil hpos h1 h2
      simp only [analyze_color_consistency, analyze_color_consistency_core, if_neg hs]
      rw [nstd_of_ne_nil _ hne0, nmean_of_ne_nil hne0, nstd_of_ne_nil _ hne1,
        nmean_of_ne_nil hne1, nstd_of_ne_nil _ hne2, nmean_of_ne_nil hne2]
      exact color_formula_inUnit (hsq _ (varL_nonneg _)) (meanL_nonneg gridRegionVars_nonneg)
        (hsq _ (varL_nonneg _)) (meanL_nonneg gridRegionVars_nonneg)
        (hsq _ (varL_nonneg _)) (meanL_nonneg gridRegionVars_nonneg)

lemma analyze_texture_inUnit (ops : Ops) (hsq : ∀ x, 0 ≤ x → 0 ≤ ops.sqrt x)
    (image : Option Img) :
    inUnitPF (analyze_texture_patterns ops image).texture_inconsistency := by
  cases image with
  | none => exact inUnitPF_zero
  | some img =>
    by_cases hs : texture_region_size img.h img.w = 0
    · simp only [analyze_texture_patterns, analyze_texture_patterns_core, hs, if_pos]
      exact inUnitPF_zero
    · obtain ⟨hpos, h1, h2⟩ := texture_size_facts hs
      have hne : gridRegionVars
          (if ops.skimageAvailable then ops.lbp (ops.bgr2gray img)
           else fun i j => ops.sqrt (ops.sobelX (ops.bgr2gray img) i j ^ 2
             + ops.sobelY (ops.bgr2gray img) i j ^ 2))
          img.h img.w (texture_region_size img.h img.w) (texture_region_size img.h img.w) ≠ [] :=
        gridRegionVars_ne_nil hpos h1 h2
      simp only [analyze_texture_patterns, analyze_texture_patterns_core, if_neg hs]
      rw [nstd_of_ne_nil _ hne, nmean_of_ne_nil hne]
      exact texture_formula_inUnit (hsq _ (varL_nonneg _))
        (meanL_nonneg gridRegionVars_nonneg)

/-! ### Helper lemmas: aggregation -/

lemma pyMax0_nonneg (a : PyF) : 0 ≤ pyMax0 a := by
  cases a with
  | none => exact le_refl 0
  | some x => exact le_max_left 0 x

lemma calc_prob_nonneg (A : Analyses) : 0 ≤ (calculate_morph_score A).1 := by
  simp only [calculate_morph_score]
  exact mul_nonneg (pyMax0_nonneg _) (by norm_num)

lemma pyAdd_eq_some {a b : PyF} {s : ℚ} (h : pyAdd a b = some s) :
    ∃ x y : ℚ, a = some x ∧ b = some y ∧ s = x + y := by
  cases a with
  | none => simp [pyAdd] at h
  | some x =>
    cases b with
    | none => simp [pyAdd] at h
    | some y =>
      refine ⟨x, y, rfl, rfl, ?_⟩
      simp [pyAdd] at h
      exact h.symm

lemma pyMulC_pyMinC_le {a : PyF} {w x : ℚ} (hw : 0 ≤ w)
    (h : pyMulC (pyMinC a 1) w = some x) : x ≤ w := by
  cases a with
  | none => simp [pyMinC, pyMulC] at h
  | some t =>
    simp only [pyMinC, pyMulC, Option.map_some', Option.some.injEq] at h
    calc x = min t 1 * w := h.symm
    _ ≤ 1 * w := mul_le_mul_of_nonneg_right (min_le_right t 1) hw
    _ = w := one_mul w

lemma calc_prob_le (A : Analyses) : (calculate_morph_score A).1 ≤ 63/100 := by
  simp only [calculate_morph_score]
  rcases hw : pyAdd (pyAdd (pyAdd (pyAdd (pyAdd
      (pyMulC (pyMinC A.compression.compression_inconsistency 1) (3/20))
      (pyMulC (pyMinC A.noise.noise_inconsistency 1) (3/20)))
      (pyMulC (pyMinC A.edge.edge_inconsistency 1) (1/5)))
      (pyMulC (pyMinC A.lighting.lighting_inconsistency 1) (1/5)))
      (pyMulC (pyMinC A.color.color_inconsistency 1) (3/20)))
      (pyMulC (pyMinC A.texture.texture_inconsistency 1) (3/20)) with _ | s
  · simp only [pySubC, Option.map_none', pyMinC, pyMax0]
    norm_num
  · obtain ⟨s5, p6, h5, hp6, rfl⟩ := pyAdd_eq_some hw
    obtain ⟨s4, p5, h4, hp5, rfl⟩ := pyAdd_eq_some h5
    obtain ⟨s3, p4, h3, hp4, rfl⟩ := pyAdd_eq_some h4
    obtain ⟨s2, p3, h2, hp3, rfl⟩ := pyAdd_eq_some h3
    obtain ⟨p1, p2, h1, hp2, rfl⟩ := pyAdd_eq_some h2
    have b1 := pyMulC_pyMinC_le (by norm_num : (0:ℚ) ≤ 3/20) h1
    have b2 := pyMulC_pyMinC_le (by norm_num : (0:ℚ) ≤ 3/20) hp2
    have b3 := pyMulC_pyMinC_le (by norm_num : (0:ℚ) ≤ 1/5) hp3
    have b4 := pyMulC_pyMinC_le (by norm_num : (0:ℚ) ≤ 1/5) hp4
    have b5 := pyMulC_pyMinC_le (by norm_num : (0:ℚ) ≤ 3/20) hp5
    have b6 := pyMulC_pyMinC_le (by norm_num : (0:ℚ) ≤ 3/20) hp6
    simp only [pySubC, Option.map_some', pyMinC, pyMax0]
    have hmin : min (p1 + p2 + p3 + p4 + p5 + p6 - 1/10) 1 ≤ 9/10 :=
      le_trans (min_le_left _ _) (by linarith)
    have hmax : max 0 (min (p1 + p2 + p3 + p4 + p5 + p6 - 1/10) 1) ≤ 9/10 :=
      max_le (by norm_num) hmin
    nlinarith [pyMax0_nonneg (some (min (p1 + p2 + p3 + p4 + p5 + p6 - 1/10) 1))]

/-! ### Helper lemmas: behaviour on a uniform (constant) image -/

lemma nvar_all_eq {c : ℚ} {xs : List ℚ} (hne : xs ≠ []) (h : ∀ x ∈ xs, x = c) :
    nvar xs = some 0 := by
  rw [nvar, if_neg hne, varL_all_eq h]

lemma analyze_noise_const_zero (ops : Ops) (img : Img) (gc : ℚ)
    (hgray : ∀ i j, ops.bgr2gray img i j = gc)
    (hblur : ∀ i j, ops.gaussianBlur (ops.bgr2gray img) i j = gc) :
    (analyze_noise_patterns ops (some img)).noise_inconsistency = some 0 := by
  by_cases hs : noise_stride img.h img.w = 0
  · simp [analyze_noise_patterns, analyze_noise_patterns_core, hs]
  · obtain ⟨hpos, h1, h2⟩ := noise_stride_facts hs
    have hzg : ∀ i j, (fun i j => ops.bgr2gray img i j
        - ops.gaussianBlur (ops.bgr2gray img) i j) i j = (0 : ℚ) := by
      intro i j
      simp only [hgray, hblur, sub_self]
    have hzero : ∀ x ∈ gridRegionVars
        (fun i j => ops.bgr2gray img i j - ops.gaussianBlur (ops.bgr2gray img) i j)
        img.h img.w (noise_region_size img.h img.w) (noise_stride img.h img.w),
        x = (0 : ℚ) := gridRegionVars_all_zero hzg
    have hne : gridRegionVars
        (fun i j => ops.bgr2gray img i j - ops.gaussianBlur (ops.bgr2gray img) i j)
        img.h img.w (noise_region_size img.h img.w) (noise_stride img.h img.w) ≠ [] :=
      gridRegionVars_ne_nil hpos h1 h2
    simp only [analyze_noise_patterns, analyze_noise_patterns_core, if_neg hs]
    rw [nmean_all_eq hne hzero]
    norm_num [noise_score_formula, pyLt]

lemma analyze_edge_const_zero (ops : Ops) (img : Img)
    (hcanny : ∀ i j, ops.canny 50 150 (ops.bgr2gray img) i j = 0) :
    (analyze_edge_consistency ops (some img)).edge_inconsistency = some 0 := by
  by_cases hs : edge_region_size img.h img.w = 0
  · simp [analyze_edge_consistency, analyze_edge_consistency_core, hs]
  · obtain ⟨hpos, h1, h2⟩ := edge_size_facts hs
    have hzero : ∀ x ∈ gridRegionEdgeDensity (ops.canny 50 150 (ops.bgr2gray img))
        img.h img.w (edge_region_size img.h img.w) (edge_region_size img.h img.w),
        x = (0 : ℚ) := by
      intro x hx
      obtain ⟨i, _, j, _, rfl⟩ := mem_flatMap_map.mp hx
      have hcount : (regionList (ops.canny 50 150 (ops.bgr2gray img)) i j
          (edge_region_size img.h img.w)).countP (fun x => decide (0 < x)) = 0 := by
        apply List.countP_eq_zero.mpr
        intro y hy
        obtain ⟨a, b, rfl⟩ := mem_regionList hy
        simp [hcanny]
      rw [hcount]
      simp
    have hne : gridRegionEdgeDensity (ops.canny 50 150 (ops.bgr2gray img))
        img.h img.w (edge_region_size img.h img.w) (edge_region_size img.h img.w) ≠ [] :=
      gridRegionEdgeDensity_ne_nil hpos h1 h2
    simp only [analyze_edge_consistency, analyze_edge_consistency_core, if_neg hs]
    rw [nmean_all_eq hne hzero]
    norm_num [edge_score_formula, pyLt]

lemma analyze_lighting_const_zero (ops : Ops) (img : Img) (lc : ℚ)
    (hl : ∀ i j, ops.bgr2lab img 0 i j = lc) (hsq0 : ops.sqrt 0 = 0) :
    (analyze_lighting_consistency ops (some img)).lighting_inconsistency = some 0 := by
  by_cases hs : lighting_region_size img.h img.w = 0
  · simp [analyze_lighting_consistency, analyze_lighting_consistency_core, hs]
  · obtain ⟨hpos, h1, h2⟩ := lighting_size_facts hs
    have hallz : ∀ x ∈ gridRegionVars (ops.bgr2lab img 0) img.h img.w
        (lighting_region_size img.h img.w) (lighting_region_size img.h img.w),
        x = (0 : ℚ) := gridRegionVars_all_zero hl
    have hne : gridRegionVars (ops.bgr2lab img 0) img.h img.w
        (lighting_region_size img.h img.w) (lighting_region_size img.h img.w) ≠ [] :=
      gridRegionVars_ne_nil hpos h1 h2
    simp only [analyze_lighting_consistency, analyze_lighting_consistency_core, if_neg hs]
    rw [nmean_all_eq hne hallz, nstd_all_eq _ hne hallz, hsq0]
    norm_num [lighting_score_formula, pyDiv, pyAddC, pyMinC]

lemma analyze_color_const_zero (ops : Ops) (img : Img) (c0 c1 c2 : ℚ)
    (h0 : ∀ i j, ops.bgr2hsv img 0 i j = c0)
    (h1c : ∀ i j, ops.bgr2hsv img 1 i j = c1)
    (h2c : ∀ i j, ops.bgr2hsv img 2 i j = c2)
    (hsq0 : ops.sqrt 0 = 0) :
    (analyze_color_consistency ops (some img)).color_inconsistency = some 0 := by
  by_cases hs : color_region_size img.h img.w = 0
  · simp [analyze_color_consistency, analyze_color_consistency_core, hs]
  · obtain ⟨hpos, hlt1, hlt2⟩ := color_size_facts hs
    have hz0 : ∀ x ∈ gridRegionVars (ops.bgr2hsv img 0) img.h img.w
        (color_region_size img.h img.w) (color_region_size img.h img.w), x = (0:ℚ) :=
      gridRegionVars_all_zero h0
    have hz1 : ∀ x ∈ gridRegionVars (ops.bgr2hsv img 1) img.h img.w
        (color_region_size img.h img.w) (color_region_size img.h img.w), x = (0:ℚ) :=
      gridRegionVars_all_zero h1c
    have hz2 : ∀ x ∈ gridRegionVars (ops.bgr2hsv img 2) img.h img.w
        (color_region_size img.h img.w) (color_region_size img.h img.w), x = (0:ℚ) :=
      gridRegionVars_all_zero h2c
    have hne0 : gridRegionVars (ops.bgr2hsv img 0) img.h img.w
        (color_region_size img.h img.w) (color_region_size img.h img.w) ≠ [] :=
      gridRegionVars_ne_nil hpos hlt1 hlt2
    have hne1 : gridRegionVars (ops.bgr2hsv img 1) img.h img.w
        (color_region_size img.h img.w) (color_region_size img.h img.w) ≠ [] :=
      gridRegionVars_ne_nil hpos hlt1 hlt2
    have hne2 : gridRegionVars (ops.bgr2hsv img 2) img.h img.w
        (color_region_size img.h img.w) (color_region_size img.h img.w) ≠ [] :=
      gridRegionVars_ne_nil hpos hlt1 hlt2
    simp only [analyze_color_consistency, analyze_color_consistency_core, if_neg hs]
    rw [nmean_all_eq hne0 hz0, nstd_all_eq _ hne0 hz0,
      nmean_all_eq hne1 hz1, nstd_all_eq _ hne1 hz1,
      nmean_all_eq hne2 hz2, nstd_all_eq _ hne2 hz2, hsq0]
    norm_num [color_score_formula, pyDiv, pyAdd, pyAddC, pyDivC, pyMinC]

lemma analyze_compression_const_zero (ops : Ops) (img : Img) (gc : ℚ)
    (h9 : 9 ≤ min img.h img.w)
    (hgray : ∀ i j, ops.bgr2gray img i j = gc)
    (hdct : ∀ b : Grid, (∀ x y, b x y = gc) → ∀ x y, 4 ≤ x → ops.dct b x y = 0)
    (hsq0 : ops.sqrt 0 = 0) :
    (analyze_image_compression ops (some img)).compression_inconsistency = some 0 := by
  have hscore : ∀ i j : ℤ, dctBlockScore ops (ops.bgr2gray img) i j = 0 := by
    intro i j
    simp only [dctBlockScore]
    have hb : ∀ x y, (fun a b => ops.bgr2gray img (i.toNat + a) (j.toNat + b)) x y = gc :=
      fun x y => hgray _ _
    have hhf : ∀ x ∈ (List.range 4).flatMap (fun a => (List.range 4).map (fun b =>
        ops.dct (fun a b => ops.bgr2gray img (i.toNat + a) (j.toNat + b)) (4 + a) (4 + b))),
        x = (0 : ℚ) := by
      intro x hx
      obtain ⟨a, _, b, _, rfl⟩ := mem_flatMap_map.mp hx
      exact hdct _ hb _ _ (by omega)
    rw [varL_all_eq hhf, hsq0, zero_div]
  have hr : loopIdx img.h 8 8 ≠ [] := loopIdx_ne_nil (by norm_num) (by omega)
  have hc : loopIdx img.w 8 8 ≠ [] := loopIdx_ne_nil (by norm_num) (by omega)
  have hne : (loopIdx img.h 8 8).flatMap (fun i => (loopIdx img.w 8 8).map (fun j =>
      dctBlockScore ops (ops.bgr2gray img) i j)) ≠ [] :=
    flatMap_map_ne_nil hr hc _
  have hallz : ∀ x ∈ (loopIdx img.h 8 8).flatMap (fun i => (loopIdx img.w 8 8).map (fun j =>
      dctBlockScore ops (ops.bgr2gray img) i j)), x = (0 : ℚ) := by
    intro x hx
    obtain ⟨i, _, j, _, rfl⟩ := mem_flatMap_map.mp hx
    exact hscore i j
  simp only [analyze_image_compression, analyze_image_compression_core]
  rw [nvar_all_eq hne hallz, nmean_all_eq hne hallz]
  norm_num [compression_score_formula, pyLt]

lemma calc_all_zero {A : Analyses}
    (h1 : A.compression.compression_inconsistency = some 0)
    (h2 : A.noise.noise_inconsistency = some 0)
    (h3 : A.edge.edge_inconsistency = some 0)
    (h4 : A.lighting.lighting_inconsistency = some 0)
    (h5 : A.color.color_inconsistency = some 0)
    (h6 : A.texture.texture_inconsistency = some 0) :
    (calculate_morph_score A).1 = 0 ∧ (calculate_morph_score A).2.1 = "Real Photo" := by
  simp only [calculate_morph_score, h1, h2, h3, h4, h5, h6, pyMinC, pyMulC, pyAdd, pySubC,
    pyMax0, Option.map_some']
  norm_num [min_def, max_def]

/-! ### Specification-side definitions (for the refinement claims) -/

/-- The `analyses` dictionary with the six inconsistency scores set and the
remaining summary fields zero (only the score fields are read by
`calculate_morph_score`). -/
def mkAnalyses (s1 s2 s3 s4 s5 s6 : PyF) : Analyses :=
  { compression := ⟨s1, some 0, some 0⟩
    noise := ⟨s2, some 0, some 0⟩
    edge := ⟨s3, some 0, some 0⟩
    lighting := ⟨s4, some 0, some 0, some 0⟩
    color := ⟨s5, some 0, some 0, some 0⟩
    texture := ⟨s6, some 0, some 0⟩ }

/-- The aggregation rule in the words of the specification: clamp each of
the six scores to at most 1.0, form the weighted sum with weights
compression 0.15, noise 0.15, edge 0.20, lighting 0.20, color 0.15,
texture 0.15, subtract the 0.1 baseline flooring the result at 0, then
multiply by 0.7. -/
def aggregate_spec_prob (s1 s2 s3 s4 s5 s6 : ℚ) : ℚ :=
  max 0 (min s1 1 * (3/20) + min s2 1 * (3/20) + min s3 1 * (1/5)
    + min s4 1 * (1/5) + min s5 1 * (3/20) + min s6 1 * (3/20) - 1/10) * (7/10)

/-- The classification bands in the words of the specification: `< 0.3`
Real Photo, `[0.3, 0.7)` Possibly Morphed, `>= 0.7` Likely Morphed. -/
def classify_spec (p : ℚ) : String :=
  if p < 3/10 then "Real Photo"
  else if p < 7/10 then "Possibly Morphed"
  else "Likely Morphed"

lemma calc_classification_eq (A : Analyses) :
    (calculate_morph_score A).2.1 = classify_spec ((calculate_morph_score A).1) := rfl

/-- C1: the score aggregation clamps each of the six analyzer scores to at
most 1.0, takes the weighted sum with weights 0.15/0.15/0.20/0.20/0.15/0.15,
subtracts the 0.1 baseline flooring at 0, multiplies by 0.7, and classifies
the calibrated probability as Real Photo below 0.3, Possibly Morphed in
[0.3, 0.7), and Likely Morphed at or above 0.7. -/
theorem calculate_morph_score_matches_spec (s1 s2 s3 s4 s5 s6 : ℚ) :
    (calculate_morph_score (mkAnalyses (some s1) (some s2) (some s3) (some s4)
      (some s5) (some s6))).1 = aggregate_spec_prob s1 s2 s3 s4 s5 s6 ∧
    (calculate_morph_score (mkAnalyses (some s1) (some s2) (some s3) (some s4)
      (some s5) (some s6))).2.1
      = classify_spec (aggregate_spec_prob s1 s2 s3 s4 s5 s6) := by
  have b1 : min s1 1 * (3/20) ≤ 1 * (3/20) :=
    mul_le_mul_of_nonneg_right (min_le_right _ _) (by norm_num)
  have b2 : min s2 1 * (3/20) ≤ 1 * (3/20) :=
    mul_le_mul_of_nonneg_right (min_le_right _ _) (by norm_num)
  have b3 : min s3 1 * (1/5) ≤ 1 * (1/5) :=
    mul_le_mul_of_nonneg_right (min_le_right _ _) (by norm_num)
  have b4 : min s4 1 * (1/5) ≤ 1 * (1/5) :=
    mul_le_mul_of_nonneg_right (min_le_right _ _) (by norm_num)
  have b5 : min s5 1 * (3/20) ≤ 1 * (3/20) :=
    mul_le_mul_of_nonneg_right (min_le_right _ _) (by norm_num)
  have b6 : min s6 1 * (3/20) ≤ 1 * (3/20) :=
    mul_le_mul_of_nonneg_right (min_le_right _ _) (by norm_num)
  have hmin : min (min s1 1 * (3/20) + min s2 1 * (3/20) + min s3 1 * (1/5)
      + min s4 1 * (1/5) + min s5 1 * (3/20) + min s6 1 * (3/20) - 1/10) 1
      = min s1 1 * (3/20) + min s2 1 * (3/20) + min s3 1 * (1/5)
      + min s4 1 * (1/5) + min s5 1 * (3/20) + min s6 1 * (3/20) - 1/10 :=
    min_eq_left (by linarith)
  have hp : (calculate_morph_score (mkAnalyses (some s1) (some s2) (some s3) (some s4)
      (some s5) (some s6))).1 = aggregate_spec_prob s1 s2 s3 s4 s5 s6 := by
    simp only [calculate_morph_score, mkAnalyses, pyMinC, pyMulC, pyAdd, pySubC, pyMax0,
      Option.map_some', aggregate_spec_prob]
    rw [hmin]
  exact ⟨hp, by rw [calc_classification_eq, hp]⟩

/-- C7: for any six analyzer results whatsoever, the calibrated probability
produced by `calculate_morph_score` is at most 0.63 = (1.0 - 0.1) * 0.7, so
the "Likely Morphed" classification (which needs probability at least 0.7)
and the upper High-certainty branch (probability above 0.8) are unreachable
on the non-fallback path. -/
theorem calibrated_probability_at_most_063 (A : Analyses) :
    (calculate_morph_score A).1 ≤ 63/100 ∧
    (calculate_morph_score A).2.1 ≠ "Likely Morphed" ∧
    ¬ (8/10 < (calculate_morph_score A).1) := by
  have hle := calc_prob_le A
  refine ⟨hle, ?_, not_lt.mpr (by linarith)⟩
  rw [calc_classification_eq]
  unfold classify_spec
  split_ifs with hlt1 hlt2
  · decide
  · decide
  · exfalso
    push_neg at hlt2
    linarith

/-- C9: `detect_morph` mutates no detector state and is a pure function of
its inputs: in the state-passing model a second run on the same decoded
bytes returns a bit-identical result and the state after a run equals the
state before it. -/
theorem detect_morph_deterministic (st : DetectorState) (ops : Ops)
    (pathExists : Bool) (decoded : Option Img) :
    (detect_morphS st ops pathExists decoded).1
      = (detect_morphS (detect_morphS st ops pathExists decoded).2 ops pathExists decoded).1 ∧
    (detect_morphS st ops pathExists decoded).2 = st :=
  ⟨rfl, rfl⟩

/-! ### Concrete fixtures used by the witnesses -/

/-- A trivial concrete instantiation of the abstracted library calls. -/
def opsW : Ops :=
  { sqrt := fun _ => 0
    dct := fun _ => fun _ _ => 0
    gaussianBlur := fun g => g
    canny := fun _ _ _ => fun _ _ => 0
    sobelX := fun _ => fun _ _ => 0
    sobelY := fun _ => fun _ _ => 0
    bgr2gray := fun img => img.chan 0
    bgr2lab := fun img => img.chan
    bgr2hsv := fun img => img.chan
    lbp := fun g => g
    skimageAvailable := true }

/-- A default detector state. -/
def stW : DetectorState := {}

/-- A 12×12 uniform (flat) image, every channel constant 5. -/
def img12 : Img := { h := 12, w := 12, chan := fun _ _ _ => 5 }

/-- A 4×4 image: smaller than one 8×8 compression block. -/
def img4 : Img := { h := 4, w := 4, chan := fun _ _ _ => 0 }

/-! ### Range invariants -/

lemma componentPct {a : PyF} (h : inUnitPF a) : inPctPF (pyMulC (pyMinC a 1) 100) := by
  obtain ⟨q, rfl, h0, h1⟩ := h
  refine ⟨min q 1 * 100, rfl, ?_, ?_⟩
  · have : 0 ≤ min q 1 := le_min h0 zero_le_one
    positivity
  · nlinarith [min_le_right q 1]

lemma round3_bounds {p : ℚ} (h0 : 0 ≤ p) (h1 : p ≤ 1) :
    0 ≤ round3 p ∧ round3 p ≤ 1 := by
  unfold round3
  have hr0 : (0 : ℤ) ≤ round (p * 1000) := by
    rw [round_eq]
    apply Int.le_floor.mpr
    push_cast
    linarith
  have hr1 : round (p * 1000) ≤ 1000 := by
    rw [round_eq]
    have hlt : (⌊p * 1000 + 1/2⌋ : ℤ) < 1001 := by
      apply Int.floor_lt.mpr
      push_cast
      linarith
    omega
  constructor
  · exact div_nonneg (by exact_mod_cast hr0) (by norm_num)
  · rw [div_le_one (by norm_num)]
    exact_mod_cast hr1

/-- C3: for a valid decoded image at least 9 pixels on the shorter side,
every analyzer inconsistency score is a genuine number in [0, 1], the
calibrated morph probability (and its rounded report field) lies in [0, 1],
and every component percentage lies in [0, 100].  The only assumption on
`np.sqrt` is that it is nonnegative on nonnegative arguments. -/
theorem scores_probability_components_in_range (ops : Ops) (img : Img) (st : DetectorState)
    (hsq : ∀ x, 0 ≤ x → 0 ≤ ops.sqrt x) (h9 : 9 ≤ min img.h img.w) :
    inUnitPF (analyze_image_compression ops (some img)).compression_inconsistency ∧
    inUnitPF (analyze_noise_patterns ops (some img)).noise_inconsistency ∧
    inUnitPF (analyze_edge_consistency ops (some img)).edge_inconsistency ∧
    inUnitPF (analyze_lighting_consistency ops (some img)).lighting_inconsistency ∧
    inUnitPF (analyze_color_consistency ops (some img)).color_inconsistency ∧
    inUnitPF (analyze_texture_patterns ops (some img)).texture_inconsistency ∧
    0 ≤ (calculate_morph_score (analysesOf ops (some img))).1 ∧
    (calculate_morph_score (analysesOf ops (some img))).1 ≤ 1 ∧
    (∃ q, (detect_morph st ops true (some img)).morph_probability = some q ∧
      0 ≤ q ∧ q ≤ 1) ∧
    inPctPF (calculate_morph_score (analysesOf ops (some img))).2.2.compression_artifacts ∧
    inPctPF (calculate_morph_score (analysesOf ops (some img))).2.2.noise_inconsistency ∧
    inPctPF (calculate_morph_score (analysesOf ops (some img))).2.2.edge_irregularities ∧
    inPctPF (calculate_morph_score (analysesOf ops (some img))).2.2.lighting_inconsistency ∧
    inPctPF (calculate_morph_score (analysesOf ops (some img))).2.2.color_inconsistency ∧
    inPctPF (calculate_morph_score (analysesOf ops (some img))).2.2.texture_irregularities := by
  have u1 := analyze_compression_inUnit ops hsq img h9
  have u2 := analyze_noise_inUnit ops hsq (some img)
  have u3 := analyze_edge_inUnit ops hsq (some img)
  have u4 := analyze_lighting_inUnit ops hsq (some img)
  have u5 := analyze_color_inUnit ops hsq (some img)
  have u6 := analyze_texture_inUnit ops hsq (some img)
  have hp0 := calc_prob_nonneg (analysesOf ops (some img))
  have hple := calc_prob_le (analysesOf ops (some img))
  have hp1 : (calculate_morph_score (analysesOf ops (some img))).1 ≤ 1 := by linarith
  obtain ⟨hq0, hq1⟩ := round3_bounds hp0 hp1
  refine ⟨u1, u2, u3, u4, u5, u6, hp0, hp1,
    ⟨round3 ((calculate_morph_score (analysesOf ops (some img))).1), rfl, hq0, hq1⟩,
    componentPct u1, componentPct u2, componentPct u3,
    componentPct u4, componentPct u5, componentPct u6⟩

/-- C3 witness at the concrete fixtures. -/
theorem scores_probability_components_in_range_witness :
    inUnitPF (analyze_image_compression opsW (some img12)).compression_inconsistency ∧
    0 ≤ (calculate_morph_score (analysesOf opsW (some img12))).1 :=
  ⟨(scores_probability_components_in_range opsW img12 stW
      (fun x hx => le_refl 0) (by decide)).1,
   (scores_probability_components_in_range opsW img12 stW
      (fun x hx => le_refl 0) (by decide)).2.2.2.2.2.2.1⟩

lemma calc_prob_of_compression_nan {A : Analyses}
    (h : A.compression.compression_inconsistency = none) :
    (calculate_morph_score A).1 = 0 ∧ (calculate_morph_score A).2.1 = "Real Photo" := by
  simp only [calculate_morph_score, h, pyMinC, pyMulC, pyAdd, pySubC, pyMax0,
    Option.map_none']
  norm_num

/-- C2: evaluated at the failing input — a 4×4 image, smaller than the
compression analyzer's 8×8 minimum block.  The block loop is empty, so
`np.var`/`np.mean` of the empty score list are NaN; no exception is raised,
the `except` fallback is NOT taken, and the analyzer returns NaN (not the
documented all-zero result), while the other analyzers do degrade to 0.0
and `detect_morph` still reports success with probability 0. -/
theorem compression_small_image_returns_nan :
    (analyze_image_compression opsW (some img4)).compression_inconsistency = none ∧
    (analyze_image_compression opsW (some img4)).compression_mean = none ∧
    (analyze_image_compression opsW (some img4)).compression_variance = none ∧
    (analyze_noise_patterns opsW (some img4)).noise_inconsistency = some 0 ∧
    (analyze_edge_consistency opsW (some img4)).edge_inconsistency = some 0 ∧
    (detect_morph stW opsW true (some img4)).success = true ∧
    (detect_morph stW opsW true (some img4)).morph_probability = some 0 ∧
    (detect_morph stW opsW true (some img4)).prediction = some "Real Photo" := by
  have hnan : (analyze_image_compression opsW (some img4)).compression_inconsistency
      = none := rfl
  obtain ⟨hp0, hcls⟩ := @calc_prob_of_compression_nan (analysesOf opsW (some img4)) hnan
  refine ⟨hnan, rfl, rfl, rfl, rfl, rfl, ?_, ?_⟩
  · show some (round3 ((calculate_morph_score (analysesOf opsW (some img4))).1)) = some 0
    rw [hp0]
    norm_num [round3]
  · show some ((calculate_morph_score (analysesOf opsW (some img4))).2.1) = some "Real Photo"
    rw [hcls]

/-- C5 counterexample: a path that exists but whose bytes cannot be decoded
(`cv2.imread` gives None) is NOT surfaced as a failure: every analyzer
catches the decode error internally and `detect_morph` returns success with
prediction "Real Photo", refuting the claim that it fails fast with
`success: false` for every undecodable input. -/
theorem undecodable_existing_path_reports_success :
    (detect_morph stW opsW true none).success = true ∧
    (detect_morph stW opsW true none).error = none ∧
    (detect_morph stW opsW true none).prediction = some "Real Photo" ∧
    (detect_morph stW opsW true none).morph_probability = some 0 := by
  obtain ⟨hp0, hcls⟩ := @calc_all_zero (analysesOf opsW none)
    rfl rfl rfl rfl rfl rfl
  refine ⟨rfl, rfl, ?_, ?_⟩
  · show some ((calculate_morph_score (analysesOf opsW none)).2.1) = some "Real Photo"
    rw [hcls]
  · show some (round3 ((calculate_morph_score (analysesOf opsW none)).1)) = some 0
    rw [hp0]
    norm_num [round3]

/-- C5 amended: `detect_morph` fails fast with `success: false` and an
error message only for a missing path; for an existing but undecodable
path every analyzer substitutes its all-zero result and the report is
returned with `success: true`, probability 0 and prediction "Real Photo". -/
theorem detect_morph_failfast_missing_only (st : DetectorState) (ops : Ops)
    (d : Option Img) :
    ((detect_morph st ops false d).success = false ∧
     (detect_morph st ops false d).error = some "Image not found" ∧
     (detect_morph st ops false d).prediction = none) ∧
    ((detect_morph st ops true none).success = true ∧
     (detect_morph st ops true none).error = none ∧
     (analyze_image_compression ops none).compression_inconsistency = some 0 ∧
     (analyze_noise_patterns ops none).noise_inconsistency = some 0 ∧
     (analyze_edge_consistency ops none).edge_inconsistency = some 0 ∧
     (analyze_lighting_consistency ops none).lighting_inconsistency = some 0 ∧
     (analyze_color_consistency ops none).color_inconsistency = some 0 ∧
     (analyze_texture_patterns ops none).texture_inconsistency = some 0 ∧
     (detect_morph st ops true none).prediction = some "Real Photo" ∧
     (detect_morph st ops true none).morph_probability = some 0) := by
  obtain ⟨hp0, hcls⟩ := @calc_all_zero (analysesOf ops none)
    rfl rfl rfl rfl rfl rfl
  refine ⟨⟨rfl, rfl, rfl⟩, rfl, rfl, rfl, rfl, rfl, rfl, rfl, rfl, ?_, ?_⟩
  · show some ((calculate_morph_score (analysesOf ops none)).2.1) = some "Real Photo"
    rw [hcls]
  · show some (round3 ((calculate_morph_score (analysesOf ops none)).1)) = some 0
    rw [hp0]
    norm_num [round3]

/-- C4 counterexample: a 16×16 image with 8×8 blocks.  The loop
`range(0, h - block_size, block_size)` excludes the final flush block, so
the partition produces 1 region, not (16/8)·(16/8) = 4 as claimed. -/
theorem region_count_divisible_mismatch :
    (loopIdx 16 8 8).length * (loopIdx 16 8 8).length = 1 ∧
    (loopIdx 16 8 8).length * (loopIdx 16 8 8).length ≠ 16 / 8 * (16 / 8) := by
  decide

/-- C4 amended: for a side exactly divisible by the granularity the loop
produces (len/g − 1) indices per dimension — one fewer than the claimed
len/g, because `range(0, len - g, g)` stops before the final flush region —
and every produced region is complete (start + g ≤ len), so trailing
partial regions are skipped rather than padded in the non-divisible case
as well. -/
theorem region_partition_count (len g : ℕ) (hg : 0 < g) :
    (g ∣ len → (loopIdx len g g).length = len / g - 1) ∧
    (∀ i ∈ loopIdx len g g, 0 ≤ i ∧ i + (g : ℤ) ≤ (len : ℤ)) := by
  constructor
  · rintro ⟨k, rfl⟩
    rw [loopIdx, pyRangeList_length (by exact_mod_cast hg)]
    have hgz : (g : ℤ) ≠ 0 := by exact_mod_cast hg.ne'
    rcases Nat.eq_zero_or_pos k with rfl | hk
    · simp
      exact le_of_lt (Int.ediv_neg' (by omega) (by exact_mod_cast hg))
    · have hstop : ((g * k : ℕ) : ℤ) - (g : ℕ) + (g : ℕ) - 1
          = ((g : ℤ) - 1) + ((k : ℤ) - 1) * g := by
        push_cast
        ring
      have key : (((g : ℤ) - 1) + ((k : ℤ) - 1) * g) / g = (k : ℤ) - 1 := by
        rw [Int.add_mul_ediv_right _ _ hgz,
          Int.ediv_eq_zero_of_lt (by omega) (by omega)]
        omega
      rw [hstop, key]
      have hdiv : g * k / g = k := Nat.mul_div_cancel_left k hg
      omega
  · intro i hi
    exact mem_loopIdx_bounds hg hi

/-- C4 amended witness: at 16×16 with granularity 8 the loop produces
16/8 − 1 = 1 index per dimension. -/
theorem region_partition_count_witness : (loopIdx 16 8 8).length = 16 / 8 - 1 :=
  (region_partition_count 16 8 (by decide)).1 (by decide)

/-! ### Low-activity short-circuit property (C6) -/

/-- A score function (std first argument, mean second, the order of the
`*_score_formula` definitions) has a mean-or-spread low-activity
short-circuit: there are positive floors such that whenever the mean or the
spread falls below its floor the score is exactly 0. -/
def HasLowActivitySC (f : PyF → PyF → PyF) : Prop :=
  ∃ fm fs : ℚ, 0 < fm ∧ 0 < fs ∧
    ∀ m s : ℚ, 0 ≤ m → 0 ≤ s → (m < fm ∨ s < fs) → f (some s) (some m) = some 0

/-- The same property for the colour score, which takes a (std, mean) pair
per HSV channel. -/
def HasLowActivitySC3 (f : PyF → PyF → PyF → PyF → PyF → PyF → PyF) : Prop :=
  ∃ fm fs : ℚ, 0 < fm ∧ 0 < fs ∧
    ∀ m s : ℚ, 0 ≤ m → 0 ≤ s → (m < fm ∨ s < fs) →
      f (some s) (some m) (some s) (some m) (some s) (some m) = some 0

lemma lighting_sc_refuted : ¬ HasLowActivitySC lighting_score_formula := by
  rintro ⟨fm, fs, hfm, hfs, h⟩
  have h2 := h (fm/2) (fm/2) (by linarith) (by linarith) (Or.inl (by linarith))
  have hval : lighting_score_formula (some (fm/2)) (some (fm/2))
      = some (min ((fm/2) / (fm/2 + 1/1000000)) 1) := rfl
  rw [hval, Option.some.injEq] at h2
  have hpos : 0 < min ((fm/2) / (fm/2 + 1/1000000)) 1 :=
    lt_min (by positivity) one_pos
  exact absurd h2 (ne_of_gt hpos)

lemma texture_sc_refuted : ¬ HasLowActivitySC texture_score_formula := by
  rintro ⟨fm, fs, hfm, hfs, h⟩
  have h2 := h (fm/2) (fm/2) (by linarith) (by linarith) (Or.inl (by linarith))
  have hval : texture_score_formula (some (fm/2)) (some (fm/2))
      = some (min ((fm/2) / (fm/2 + 1/1000000)) 1) := rfl
  rw [hval, Option.some.injEq] at h2
  have hpos : 0 < min ((fm/2) / (fm/2 + 1/1000000)) 1 :=
    lt_min (by positivity) one_pos
  exact absurd h2 (ne_of_gt hpos)

lemma color_sc_refuted : ¬ HasLowActivitySC3 color_score_formula := by
  rintro ⟨fm, fs, hfm, hfs, h⟩
  have h2 := h (fm/2) (fm/2) (by linarith) (by linarith) (Or.inl (by linarith))
  have hval : color_score_formula (some (fm/2)) (some (fm/2)) (some (fm/2)) (some (fm/2))
      (some (fm/2)) (some (fm/2))
      = some (min (((fm/2) / (fm/2 + 1/1000000) + (fm/2) / (fm/2 + 1/1000000)
          + (fm/2) / (fm/2 + 1/1000000)) / 3) 1) := rfl
  rw [hval, Option.some.injEq] at h2
  have hpos : 0 < min (((fm/2) / (fm/2 + 1/1000000) + (fm/2) / (fm/2 + 1/1000000)
      + (fm/2) / (fm/2 + 1/1000000)) / 3) 1 :=
    lt_min (by positivity) one_pos
  exact absurd h2 (ne_of_gt hpos)

/-- C6 counterexample: the lighting analyzer (one of the six) has NO
low-activity short-circuit: its score is the raw ratio `std/(mean+1e-6)`
capped at 1, which is nonzero for arbitrarily small mean and spread, so no
positive floor can exist. -/
theorem lighting_lacks_short_circuit : ¬ HasLowActivitySC lighting_score_formula :=
  lighting_sc_refuted

/-- C6 amended: only three of the six analyzers short-circuit, each with its
own trigger: compression returns exactly 0 when mean < 1.0 AND variance <
0.5 (a conjunction, not mean-or-spread), noise when mean < 20 (mean only),
edge when mean < 0.02 OR std < 0.01; the lighting, colour and texture
analyzers have no low-activity short-circuit at all. -/
theorem low_activity_short_circuits_amended :
    (∀ (sq : ℚ → ℚ) (v m : ℚ), m < 1 → v < 1/2 →
      compression_score_formula sq (some v) (some m) = some 0) ∧
    (∀ (sq : ℚ → ℚ) (s m : ℚ), m < 20 → noise_score_formula sq (some s) (some m) = some 0) ∧
    (∀ (sq : ℚ → ℚ) (s m : ℚ), m < 1/50 ∨ s < 1/100 →
      edge_score_formula sq (some s) (some m) = some 0) ∧
    ¬ HasLowActivitySC lighting_score_formula ∧
    ¬ HasLowActivitySC3 color_score_formula ∧
    ¬ HasLowActivitySC texture_score_formula := by
  refine ⟨?_, ?_, ?_, lighting_sc_refuted, color_sc_refuted, texture_sc_refuted⟩
  · intro sq v m h1 h2
    simp [compression_score_formula, pyLt, h1, h2]
    intro hv
    linarith
  · intro sq s m h1
    simp [noise_score_formula, pyLt, h1]
  · intro sq s m h1
    rcases h1 with h1 | h1
    · simp [edge_score_formula, pyLt, h1]
      intro hm hs
      linarith
    · simp [edge_score_formula, pyLt, h1]
      intro hm hs
      linarith

/-- C6 amended witness: the three existing short-circuits fire at concrete
inputs. -/
theorem low_activity_short_circuits_amended_witness :
    compression_score_formula (fun x => x) (some 0) (some 0) = some 0 ∧
    noise_score_formula (fun x => x) (some 5) (some 0) = some 0 ∧
    edge_score_formula (fun x => x) (some 5) (some 0) = some 0 :=
  ⟨low_activity_short_circuits_amended.1 (fun x => x) 0 0 (by norm_num) (by norm_num),
   low_activity_short_circuits_amended.2.1 (fun x => x) 5 0 (by norm_num),
   low_activity_short_circuits_amended.2.2.1 (fun x => x) 5 0 (Or.inl (by norm_num))⟩

/-- C10 counterexample: the noise analyzer's loop step is half its region
size (`region_size // 2`), not the region size: at 512×512 the region size
is 128 and the stride 64. -/
theorem noise_analyzer_uses_half_stride :
    noise_stride 512 512 ≠ noise_region_size 512 512 ∧
    noise_stride 512 512 * 2 = noise_region_size 512 512 ∧
    noise_region_size 512 512 = 128 := by
  decide

/-- C10 amended: the analyzers whose loop step equals the region size
(compression, edge, lighting, colour, texture) produce pairwise
non-overlapping regions — distinct start indices differ by at least the
region size — whereas the noise analyzer steps by `region_size // 2` and,
e.g. at 512×512, produces overlapping regions starting at 0 and 64 with
region size 128. -/
theorem stride_policy_amended :
    (∀ len rs : ℕ, 0 < rs → ∀ i ∈ loopIdx len rs rs, ∀ j ∈ loopIdx len rs rs,
      i ≠ j → (rs : ℤ) ≤ |i - j|) ∧
    (∀ h w : ℕ, noise_stride h w = noise_region_size h w / 2) ∧
    ((0 : ℤ) ∈ loopIdx 512 (noise_region_size 512 512) (noise_stride 512 512) ∧
     (64 : ℤ) ∈ loopIdx 512 (noise_region_size 512 512) (noise_stride 512 512) ∧
     (64 : ℤ) < 0 + (noise_region_size 512 512 : ℤ)) := by
  refine ⟨?_, fun h w => rfl, by decide, by decide, by decide⟩
  intro len rs hrs i hi j hj hne
  obtain ⟨k1, _, rfl⟩ := (mem_pyRangeList (by exact_mod_cast hrs)).mp hi
  obtain ⟨k2, _, rfl⟩ := (mem_pyRangeList (by exact_mod_cast hrs)).mp hj
  have hk : (k1 : ℤ) - k2 ≠ 0 := by
    intro hcontra
    apply hne
    have : (k1 : ℤ) = k2 := by omega
    rw [this]
  have habs : |(k1 : ℤ) * rs - (k2 : ℤ) * rs| = |(k1 : ℤ) - k2| * rs := by
    rw [← sub_mul, abs_mul, abs_of_nonneg (by positivity : (0:ℤ) ≤ (rs:ℤ))]
  have h1 : 1 ≤ |(k1 : ℤ) - k2| := Int.one_le_abs hk
  calc (rs : ℤ) = 1 * rs := (one_mul _).symm
  _ ≤ |(k1 : ℤ) - k2| * rs := mul_le_mul_of_nonneg_right h1 (by positivity)
  _ = |(k1 : ℤ) * rs - (k2 : ℤ) * rs| := habs.symm

/-- C10 amended witness: two distinct edge-style (stride = size) region
starts at 512×512 with size 128 are at least 128 apart. -/
theorem stride_policy_amended_witness : ((128 : ℕ) : ℤ) ≤ |(0 : ℤ) - 128| :=
  stride_policy_amended.1 512 128 (by decide) 0 (by decide) 128 (by decide) (by decide)

/-! ### The texture analyzer on a uniform image under scikit-image's LBP -/

/-- The radius-3 neighbourhood sampled by `skimage.feature.local_binary_pattern`
(P = 24, R = 3, the parameters in the source) lies entirely inside the
`h × w` image extent at pixel (i, j).  Outside this region at least one of
the 24 circle samples is interpolated against the zero padding skimage uses
for out-of-image coordinates (constant mode, cval = 0). -/
def lbpInterior (h w i j : ℕ) : Prop :=
  3 ≤ i ∧ i + 3 < h ∧ 3 ≤ j ∧ j + 3 < w

instance lbpInteriorDec (h w i j : ℕ) : Decidable (lbpInterior h w i j) := by
  unfold lbpInterior
  infer_instance

lemma mem_pyRangeList_intro {stop step : ℤ} (hstep : 0 < step) (k : ℕ)
    (hk : (k : ℤ) * step < stop) : (k : ℤ) * step ∈ pyRangeList stop step := by
  rw [mem_pyRangeList hstep]
  refine ⟨k, ?_, rfl⟩
  have h2 : (k : ℤ) * step + 1 ≤ stop := Int.lt_iff_add_one_le.mp hk
  have h1 : (k : ℤ) + 1 ≤ (stop + step - 1) / step := by
    rw [Int.le_ediv_iff_mul_le hstep]
    have hexp : ((k : ℤ) + 1) * step = (k : ℤ) * step + step := by ring
    rw [hexp]
    linarith
  omega

lemma mem_regionList_bounds {g : Grid} {i j : ℤ} {rs : ℕ} {x : ℚ}
    (hx : x ∈ regionList g i j rs) :
    ∃ a b : ℕ, a < rs ∧ b < rs ∧ x = g (i.toNat + a) (j.toNat + b) := by
  obtain ⟨a, ha, b, hb, rfl⟩ := mem_flatMap_map.mp hx
  exact ⟨a, b, List.mem_range.mp ha, List.mem_range.mp hb, rfl⟩

lemma mem_regionList_intro (g : Grid) (i j : ℤ) {rs a b : ℕ} (ha : a < rs) (hb : b < rs) :
    g (i.toNat + a) (j.toNat + b) ∈ regionList g i j rs :=
  mem_flatMap_map.mpr ⟨a, List.mem_range.mpr ha, b, List.mem_range.mpr hb, rfl⟩

lemma listSum_pos_of_mem : ∀ {xs : List ℚ}, (∀ x ∈ xs, 0 ≤ x) →
    ∀ {y : ℚ}, y ∈ xs → 0 < y → 0 < xs.sum := by
  intro xs
  induction xs with
  | nil =>
    intro _ y hy _
    simp at hy
  | cons a t ih =>
    intro hall y hy hypos
    rcases List.mem_cons.mp hy with rfl | hyt
    · have ht : 0 ≤ t.sum :=
        List.sum_nonneg (fun x hx => hall x (List.mem_cons_of_mem _ hx))
      simp only [List.sum_cons]
      linarith
    · have ha : 0 ≤ a := hall a (List.mem_cons_self _ _)
      have hts := ih (fun x hx => hall x (List.mem_cons_of_mem _ hx)) hyt hypos
      simp only [List.sum_cons]
      linarith

lemma varL_pos_of_mem_ne {xs : List ℚ} {x y : ℚ} (hx : x ∈ xs) (hy : y ∈ xs)
    (hne : x ≠ y) : 0 < varL xs := by
  have hlen : xs ≠ [] := by
    rintro rfl
    simp at hx
  have hlpos : (0 : ℚ) < (xs.length : ℚ) := by
    exact_mod_cast List.length_pos.mpr hlen
  have key : x ≠ meanL xs ∨ y ≠ meanL xs := by
    by_contra hc
    push_neg at hc
    exact hne (hc.1.trans hc.2.symm)
  have hex : ∃ z ∈ xs, 0 < (z - meanL xs) ^ 2 := by
    rcases key with h | h
    · exact ⟨x, hx, lt_of_le_of_ne (sq_nonneg _)
        (Ne.symm (pow_ne_zero 2 (sub_ne_zero.mpr h)))⟩
    · exact ⟨y, hy, lt_of_le_of_ne (sq_nonneg _)
        (Ne.symm (pow_ne_zero 2 (sub_ne_zero.mpr h)))⟩
  obtain ⟨z, hz, hzpos⟩ := hex
  have hs : 0 < (xs.map (fun u => (u - meanL xs) ^ 2)).sum := by
    refine listSum_pos_of_mem ?_ (List.mem_map.mpr ⟨z, hz, rfl⟩) hzpos
    intro u hu
    obtain ⟨v, _, rfl⟩ := List.mem_map.mp hu
    positivity
  exact div_pos hs hlpos

/-- On a constant positive plane, skimage's LBP yields the uniform all-ones
code 24 exactly where the sampling circle stays inside the image and a code
other than 24 at every border pixel (at least one zero-padded sample falls
below the centre, so the pattern has fewer than 24 ones, or is non-uniform
with code 25).  Under these facts the texture analyzer's score on a
sufficiently large image is strictly positive: a border region's variance
differs from an interior region's zero variance, so the dispersion of the
per-region variances is positive and the undamped ratio formula returns a
positive value. -/
lemma analyze_texture_pos_of_lbp_border (ops : Ops) (img : Img)
    (h24 : 24 ≤ min img.h img.w)
    (hski : ops.skimageAvailable = true)
    (hlbpi : ∀ i j, lbpInterior img.h img.w i j → ops.lbp (ops.bgr2gray img) i j = 24)
    (hlbpb : ∀ i j, ¬ lbpInterior img.h img.w i j → ops.lbp (ops.bgr2gray img) i j ≠ 24)
    (hsq_pos : ∀ x, 0 < x → 0 < ops.sqrt x) :
    ∃ q, (analyze_texture_patterns ops (some img)).texture_inconsistency = some q ∧
      0 < q ∧ q ≤ 1 := by
  have hs : texture_region_size img.h img.w ≠ 0 := by
    unfold texture_region_size
    omega
  obtain ⟨hpos, hlt1, hlt2⟩ := texture_size_facts hs
  have hrs4 : 4 ≤ texture_region_size img.h img.w := by
    unfold texture_region_size at *
    omega
  have h2rs1 : 2 * texture_region_size img.h img.w + 2 < img.h := by
    unfold texture_region_size at *
    omega
  have h2rs2 : 2 * texture_region_size img.h img.w + 2 < img.w := by
    unfold texture_region_size at *
    omega
  have hne : gridRegionVars (if ops.skimageAvailable then ops.lbp (ops.bgr2gray img)
      else fun i j => ops.sqrt (ops.sobelX (ops.bgr2gray img) i j ^ 2
        + ops.sobelY (ops.bgr2gray img) i j ^ 2))
      img.h img.w (texture_region_size img.h img.w) (texture_region_size img.h img.w) ≠ [] :=
    gridRegionVars_ne_nil hpos hlt1 hlt2
  have hGeq : (if ops.skimageAvailable then ops.lbp (ops.bgr2gray img)
      else fun i j => ops.sqrt (ops.sobelX (ops.bgr2gray img) i j ^ 2
        + ops.sobelY (ops.bgr2gray img) i j ^ 2)) = ops.lbp (ops.bgr2gray img) :=
    if_pos hski
  have hstep : (0 : ℤ) < (texture_region_size img.h img.w : ℤ) := by
    exact_mod_cast hpos
  have hm0h : (0 : ℤ) ∈ loopIdx img.h (texture_region_size img.h img.w)
      (texture_region_size img.h img.w) := by
    have hk : ((0 : ℕ) : ℤ) * (texture_region_size img.h img.w : ℤ)
        < (img.h : ℤ) - (texture_region_size img.h img.w : ℤ) := by
      simp only [Nat.cast_zero, zero_mul]
      omega
    have hmem := mem_pyRangeList_intro hstep 0 hk
    simpa [loopIdx] using hmem
  have hm0w : (0 : ℤ) ∈ loopIdx img.w (texture_region_size img.h img.w)
      (texture_region_size img.h img.w) := by
    have hk : ((0 : ℕ) : ℤ) * (texture_region_size img.h img.w : ℤ)
        < (img.w : ℤ) - (texture_region_size img.h img.w : ℤ) := by
      simp only [Nat.cast_zero, zero_mul]
      omega
    have hmem := mem_pyRangeList_intro hstep 0 hk
    simpa [loopIdx] using hmem
  have hm1h : ((texture_region_size img.h img.w : ℕ) : ℤ)
      ∈ loopIdx img.h (texture_region_size img.h img.w) (texture_region_size img.h img.w) := by
    have hk : ((1 : ℕ) : ℤ) * (texture_region_size img.h img.w : ℤ)
        < (img.h : ℤ) - (texture_region_size img.h img.w : ℤ) := by
      simp only [Nat.cast_one, one_mul]
      omega
    have hmem := mem_pyRangeList_intro hstep 1 hk
    simpa [loopIdx] using hmem
  have hm1w : ((texture_region_size img.h img.w : ℕ) : ℤ)
      ∈ loopIdx img.w (texture_region_size img.h img.w) (texture_region_size img.h img.w) := by
    have hk : ((1 : ℕ) : ℤ) * (texture_region_size img.h img.w : ℤ)
        < (img.w : ℤ) - (texture_region_size img.h img.w : ℤ) := by
      simp only [Nat.cast_one, one_mul]
      omega
    have hmem := mem_pyRangeList_intro hstep 1 hk
    simpa [loopIdx] using hmem
  have hb00 : ¬ lbpInterior img.h img.w 0 0 := by
    rintro ⟨h3, -, -, -⟩
    omega
  have hi33 : lbpInterior img.h img.w 3 3 :=
    ⟨by omega, by omega, by omega, by omega⟩
  have hx0 : ops.lbp (ops.bgr2gray img) 0 0
      ∈ regionList (ops.lbp (ops.bgr2gray img)) 0 0 (texture_region_size img.h img.w) := by
    have hmem := mem_regionList_intro (ops.lbp (ops.bgr2gray img)) 0 0 hpos hpos
    simpa using hmem
  have hy0 : ops.lbp (ops.bgr2gray img) 3 3
      ∈ regionList (ops.lbp (ops.bgr2gray img)) 0 0 (texture_region_size img.h img.w) := by
    have hmem := mem_regionList_intro (ops.lbp (ops.bgr2gray img)) 0 0
      (show 3 < texture_region_size img.h img.w by omega)
      (show 3 < texture_region_size img.h img.w by omega)
    simpa using hmem
  have hv0 : 0 < varL (regionList (ops.lbp (ops.bgr2gray img)) 0 0
      (texture_region_size img.h img.w)) := by
    refine varL_pos_of_mem_ne hx0 hy0 ?_
    intro he
    exact hlbpb 0 0 hb00 (he.trans (hlbpi 3 3 hi33))
  have hv1 : varL (regionList (ops.lbp (ops.bgr2gray img))
      ((texture_region_size img.h img.w : ℕ) : ℤ)
      ((texture_region_size img.h img.w : ℕ) : ℤ)
      (texture_region_size img.h img.w)) = 0 := by
    apply varL_all_eq
    intro y hy
    obtain ⟨a, b, ha, hb, rfl⟩ := mem_regionList_bounds hy
    have ht : ((texture_region_size img.h img.w : ℕ) : ℤ).toNat
        = texture_region_size img.h img.w := rfl
    rw [ht]
    exact hlbpi _ _ ⟨by omega, by omega, by omega, by omega⟩
  have hv0mem : varL (regionList (ops.lbp (ops.bgr2gray img)) 0 0
      (texture_region_size img.h img.w))
      ∈ gridRegionVars (ops.lbp (ops.bgr2gray img)) img.h img.w
        (texture_region_size img.h img.w) (texture_region_size img.h img.w) :=
    mem_flatMap_map.mpr ⟨0, hm0h, 0, hm0w, rfl⟩
  have hv1mem : varL (regionList (ops.lbp (ops.bgr2gray img))
      ((texture_region_size img.h img.w : ℕ) : ℤ)
      ((texture_region_size img.h img.w : ℕ) : ℤ)
      (texture_region_size img.h img.w))
      ∈ gridRegionVars (ops.lbp (ops.bgr2gray img)) img.h img.w
        (texture_region_size img.h img.w) (texture_region_size img.h img.w) :=
    mem_flatMap_map.mpr ⟨_, hm1h, _, hm1w, rfl⟩
  have hvars : 0 < varL (gridRegionVars (ops.lbp (ops.bgr2gray img)) img.h img.w
      (texture_region_size img.h img.w) (texture_region_size img.h img.w)) := by
    refine varL_pos_of_mem_ne hv0mem hv1mem ?_
    rw [hv1]
    exact ne_of_gt hv0
  have hmean0 : 0 ≤ meanL (gridRegionVars (ops.lbp (ops.bgr2gray img)) img.h img.w
      (texture_region_size img.h img.w) (texture_region_size img.h img.w)) :=
    meanL_nonneg gridRegionVars_nonneg
  simp only [analyze_texture_patterns, analyze_texture_patterns_core, if_neg hs]
  rw [nstd_of_ne_nil _ hne, nmean_of_ne_nil hne, hGeq]
  simp only [texture_score_formula, pyDiv, pyAddC, pyMinC, Option.map_some']
  refine ⟨_, rfl, ?_, min_le_right _ _⟩
  exact lt_min (div_pos (hsq_pos _ hvars) (by linarith)) one_pos

lemma max_mul_bound {x : ℚ} (h : max 0 x ≤ 1/20) : max 0 x * (7/10) ≤ 7/200 := by
  calc max 0 x * (7/10) ≤ (1/20) * (7/10) :=
    mul_le_mul_of_nonneg_right h (by norm_num)
  _ = 7/200 := by norm_num

lemma calc_five_zero_texture {A : Analyses} {q : ℚ}
    (h1 : A.compression.compression_inconsistency = some 0)
    (h2 : A.noise.noise_inconsistency = some 0)
    (h3 : A.edge.edge_inconsistency = some 0)
    (h4 : A.lighting.lighting_inconsistency = some 0)
    (h5 : A.color.color_inconsistency = some 0)
    (h6 : A.texture.texture_inconsistency = some q) :
    (calculate_morph_score A).1 ≤ 7/200 ∧ (calculate_morph_score A).2.1 = "Real Photo" := by
  have hp : (calculate_morph_score A).1 ≤ 7/200 := by
    simp only [calculate_morph_score, h1, h2, h3, h4, h5, h6, pyMinC, pyMulC, pyAdd, pySubC,
      pyMax0, Option.map_some']
    refine max_mul_bound (max_le (by norm_num) (le_trans (min_le_left _ _) ?_))
    have hm0 : min (0 : ℚ) 1 = 0 := min_eq_left (by norm_num)
    have hmq : min q 1 * (3/20) ≤ 1 * (3/20) :=
      mul_le_mul_of_nonneg_right (min_le_right _ _) (by norm_num)
    rw [hm0]
    linarith
  refine ⟨hp, ?_⟩
  rw [calc_classification_eq]
  unfold classify_spec
  rw [if_pos (lt_of_le_of_lt hp (by norm_num))]

lemma round3_small {p : ℚ} (h0 : 0 ≤ p) (h1 : p ≤ 7/200) :
    0 ≤ round3 p ∧ round3 p ≤ 1/10 := by
  unfold round3
  have hr0 : (0 : ℤ) ≤ round (p * 1000) := by
    rw [round_eq]
    apply Int.le_floor.mpr
    push_cast
    linarith
  have hr1 : round (p * 1000) ≤ 35 := by
    rw [round_eq]
    have hlt : ⌊p * 1000 + 1/2⌋ < 36 := by
      apply Int.floor_lt.mpr
      push_cast
      linarith
    omega
  constructor
  · exact div_nonneg (by exact_mod_cast hr0) (by norm_num)
  · rw [div_le_iff₀ (by norm_num : (0 : ℚ) < 1000)]
    calc ((round (p * 1000) : ℤ) : ℚ) ≤ 35 := by exact_mod_cast hr1
    _ ≤ (1/10) * 1000 := by norm_num

/-- A 24×24 uniform flat-gray image, every channel constant 5 (a positive
gray level: the case in which skimage's zero padding makes border LBP codes
differ from the interior). -/
def img24 : Img := { h := 24, w := 24, chan := fun _ _ _ => 5 }

/-- Concrete library instantiation modelling scikit-image's
`local_binary_pattern` on the constant plane of `img24`: skimage
interpolates out-of-image samples against zero padding (constant mode,
cval = 0), so on a constant positive plane every pixel whose radius-3
sampling circle stays inside the 24×24 extent gets the all-ones uniform
code P = 24, while pixels nearer the border get codes other than 24 (the
single representative code 12 stands in for the varying sub-24 border
codes; any value other than 24 yields the same nonzero-variance
conclusion).  The square root is the identity, which agrees with `np.sqrt`
in being zero exactly at zero and positive on positives — the facts at
stake here.  The remaining fields are the same trivial constant-preserving
functions as `opsW`. -/
def opsSk : Ops :=
  { sqrt := fun x => x
    dct := fun _ => fun _ _ => 0
    gaussianBlur := fun g => g
    canny := fun _ _ _ => fun _ _ => 0
    sobelX := fun _ => fun _ _ => 0
    sobelY := fun _ => fun _ _ => 0
    bgr2gray := fun img => img.chan 0
    bgr2lab := fun img => img.chan
    bgr2hsv := fun img => img.chan
    lbp := fun _ => fun i j => if lbpInterior 24 24 i j then 24 else 12
    skimageAvailable := true }

/-- C8 counterexample: on a uniform flat-gray image (24×24, every channel
constant 5) the texture analyzer does NOT return an inconsistency score of
0.0 once scikit-image's LBP is modelled faithfully: its zero padding gives
border pixels codes different from the interior all-ones code 24, so a
border region's variance differs from an interior region's zero variance
and the texture score min(std/(mean+1e-6), 1) is strictly positive (this
path has no low-activity short-circuit) — refuting the claim that every
one of the six analyzers returns exactly 0.0 on a uniform image. -/
theorem uniform_image_texture_score_nonzero :
    (∀ ch i j, img24.chan ch i j = 5) ∧
    (analyze_texture_patterns opsSk (some img24)).texture_inconsistency ≠ some 0 := by
  refine ⟨fun ch i j => rfl, ?_⟩
  obtain ⟨q, hq, hqpos, -⟩ := analyze_texture_pos_of_lbp_border opsSk img24 (by decide) rfl
    (fun i j hij => if_pos hij)
    (fun i j hij => by
      show (if lbpInterior 24 24 i j then (24 : ℚ) else 12) ≠ 24
      have hij24 : ¬ lbpInterior 24 24 i j := hij
      rw [if_neg hij24]
      norm_num)
    (fun x hx => hx)
  rw [hq]
  simp only [ne_eq, Option.some.injEq]
  exact ne_of_gt hqpos

/-- C8 amended: on a uniform solid-colour image (at least 24 pixels on the
shorter side), the compression, noise, edge, lighting and colour analyzers
return an inconsistency score of exactly 0.0; with scikit-image available
(the program's primary configuration) the texture analyzer instead returns
a strictly positive score, because skimage's zero-padded LBP gives border
pixels codes other than the interior code 24; and detect_morph still
reports success with prediction "Real Photo" and morph probability at most
0.1 (at most 0.035, since the texture weight is 0.15 and the baseline 0.1
is subtracted before scaling by 0.7).  The hypotheses are the standard
facts about the abstracted library calls on a constant positive input:
conversions of a constant image are constant, a normalised blur preserves a
constant plane, Canny finds no edges and Sobel derivatives vanish on a
constant plane, high-frequency DCT coefficients of a constant block are 0,
skimage's LBP yields 24 exactly where its radius-3 circle stays inside the
image and another code where the zero padding intervenes, and np.sqrt is
zero at zero and positive on positives. -/
theorem uniform_image_five_zero_texture_pos (ops : Ops) (img : Img) (st : DetectorState)
    (gc lc c0 c1 c2 : ℚ)
    (h24 : 24 ≤ min img.h img.w)
    (hgray : ∀ i j, ops.bgr2gray img i j = gc)
    (hdct : ∀ b : Grid, (∀ x y, b x y = gc) → ∀ x y, 4 ≤ x → ops.dct b x y = 0)
    (hblur : ∀ i j, ops.gaussianBlur (ops.bgr2gray img) i j = gc)
    (hcanny : ∀ i j, ops.canny 50 150 (ops.bgr2gray img) i j = 0)
    (hlab : ∀ i j, ops.bgr2lab img 0 i j = lc)
    (hhsv0 : ∀ i j, ops.bgr2hsv img 0 i j = c0)
    (hhsv1 : ∀ i j, ops.bgr2hsv img 1 i j = c1)
    (hhsv2 : ∀ i j, ops.bgr2hsv img 2 i j = c2)
    (hski : ops.skimageAvailable = true)
    (hlbpi : ∀ i j, lbpInterior img.h img.w i j → ops.lbp (ops.bgr2gray img) i j = 24)
    (hlbpb : ∀ i j, ¬ lbpInterior img.h img.w i j → ops.lbp (ops.bgr2gray img) i j ≠ 24)
    (hsq0 : ops.sqrt 0 = 0)
    (hsq_pos : ∀ x, 0 < x → 0 < ops.sqrt x) :
    (analyze_image_compression ops (some img)).compression_inconsistency = some 0 ∧
    (analyze_noise_patterns ops (some img)).noise_inconsistency = some 0 ∧
    (analyze_edge_consistency ops (some img)).edge_inconsistency = some 0 ∧
    (analyze_lighting_consistency ops (some img)).lighting_inconsistency = some 0 ∧
    (analyze_color_consistency ops (some img)).color_inconsistency = some 0 ∧
    (∃ q, (analyze_texture_patterns ops (some img)).texture_inconsistency = some q ∧
      0 < q ∧ q ≤ 1) ∧
    (detect_morph st ops true (some img)).success = true ∧
    (detect_morph st ops true (some img)).prediction = some "Real Photo" ∧
    (∃ p, (detect_morph st ops true (some img)).morph_probability = some p ∧
      0 ≤ p ∧ p ≤ 1/10) ∧
    (calculate_morph_score (analysesOf ops (some img))).1 ≤ 1/10 := by
  have h9 : 9 ≤ min img.h img.w := by omega
  have e1 := analyze_compression_const_zero ops img gc h9 hgray hdct hsq0
  have e2 := analyze_noise_const_zero ops img gc hgray hblur
  have e3 := analyze_edge_const_zero ops img hcanny
  have e4 := analyze_lighting_const_zero ops img lc hlab hsq0
  have e5 := analyze_color_const_zero ops img c0 c1 c2 hhsv0 hhsv1 hhsv2 hsq0
  obtain ⟨q, e6, hq0, hq1⟩ :=
    analyze_texture_pos_of_lbp_border ops img h24 hski hlbpi hlbpb hsq_pos
  obtain ⟨hple, hcls⟩ := @calc_five_zero_texture (analysesOf ops (some img)) q
    e1 e2 e3 e4 e5 e6
  have hpge := calc_prob_nonneg (analysesOf ops (some img))
  obtain ⟨hr0, hr1⟩ := round3_small hpge hple
  refine ⟨e1, e2, e3, e4, e5, ⟨q, e6, hq0, hq1⟩, rfl, ?_, ?_, by linarith⟩
  · show some ((calculate_morph_score (analysesOf ops (some img))).2.1) = some "Real Photo"
    rw [hcls]
  · exact ⟨round3 ((calculate_morph_score (analysesOf ops (some img))).1), rfl, hr0, hr1⟩

/-- C8 amended witness at the concrete fixtures: the 24×24 flat image under
the modelled skimage LBP. -/
theorem uniform_image_five_zero_texture_pos_witness :
    (analyze_noise_patterns opsSk (some img24)).noise_inconsistency = some 0 ∧
    (detect_morph stW opsSk true (some img24)).prediction = some "Real Photo" :=
  ⟨(uniform_image_five_zero_texture_pos opsSk img24 stW 5 5 5 5 5 (by decide)
      (fun i j => rfl) (fun b hb x y hx => rfl) (fun i j => rfl) (fun i j => rfl)
      (fun i j => rfl) (fun i j => rfl) (fun i j => rfl) (fun i j => rfl)
      rfl
      (fun i j hij => if_pos hij)
      (fun i j hij => by
        show (if lbpInterior 24 24 i j then (24 : ℚ) else 12) ≠ 24
        have hij24 : ¬ lbpInterior 24 24 i j := hij
        rw [if_neg hij24]
        norm_num)
      rfl
      (fun x hx => hx)).2.1,
   (uniform_image_five_zero_texture_pos opsSk img24 stW 5 5 5 5 5 (by decide)
      (fun i j => rfl) (fun b hb x y hx => rfl) (fun i j => rfl) (fun i j => rfl)
      (fun i j => rfl) (fun i j => rfl) (fun i j => rfl) (fun i j => rfl)
      rfl
      (fun i j hij => if_pos hij)
      (fun i j hij => by
        show (if lbpInterior 24 24 i j then (24 : ℚ) else 12) ≠ 24
        have hij24 : ¬ lbpInterior 24 24 i j := hij
        rw [if_neg hij24]
        norm_num)
      rfl
      (fun x hx => hx)).2.2.2.2.2.2.2.1⟩
